import Mathlib

/-!
A shallow embedding of the transactional stock-ledger subsystem of the RIOM
inventory backend: the stock adjustment engine (`adjustStock`,
`bulkUpdateStock` in the SKU service), the order transaction coordinator
(`createOrder` in the order service), the low-stock query (`findLowStock`)
and the order-number generator (`generateOrderNumber`).

JavaScript numbers are modelled as exact rationals extended with the three
non-finite values (`NaN`, `Infinity`, `-Infinity`); `null`/`undefined`
arguments are modelled with `Option`.  The MongoDB session/transaction
machinery is modelled by explicit state passing: a transactional body
threads the database and returns `Except`; the surrounding
`withTransaction` / `commitTransaction` + `abortTransaction` wrapper keeps
the new database on success and restores the original one on error.
-/

namespace Riom

/-- A JavaScript number: a finite (exact) rational, or one of the three
non-finite values. -/
inductive JsNum where
  | fin (q : ℚ)
  | posInf
  | negInf
  | nan
deriving DecidableEq, Repr

namespace JsNum

/-- JavaScript `+` on numbers. -/
def add : JsNum → JsNum → JsNum
  | .fin a, .fin b => .fin (a + b)
  | .fin _, .posInf => .posInf
  | .fin _, .negInf => .negInf
  | .posInf, .fin _ => .posInf
  | .negInf, .fin _ => .negInf
  | .posInf, .posInf => .posInf
  | .negInf, .negInf => .negInf
  | .posInf, .negInf => .nan
  | .negInf, .posInf => .nan
  | .nan, _ => .nan
  | _, .nan => .nan

/-- JavaScript `Number.isFinite`. -/
def isFinite : JsNum → Bool
  | .fin _ => true
  | _ => false

/-- JavaScript `x === 0` (false for `NaN`). -/
def isZero : JsNum → Bool
  | .fin q => q == 0
  | _ => false

/-- JavaScript unary minus. -/
def neg : JsNum → JsNum
  | .fin q => .fin (-q)
  | .posInf => .negInf
  | .negInf => .posInf
  | .nan => .nan

end JsNum

/-- Machine-readable error kinds (`src/constants/errorCodes`). -/
inductive ErrCode where
  | INVALID_INPUT
  | SKU_NOT_FOUND
  | PRODUCT_NOT_FOUND
  | INSUFFICIENT_STOCK
  | DUPLICATE_BARCODE
  | SERVER_ERROR
deriving DecidableEq, Repr

/-- `createHttpError(message, statusCode, code)` from `src/utils/httpError.js`. -/
structure HttpError where
  message : String
  statusCode : Nat
  code : ErrCode
deriving DecidableEq, Repr

/-- A SKU document (`skuSchema` in the models). Stock is stored as an exact
rational: the engine only ever writes values it has checked to be finite. -/
structure Sku where
  _id : String
  productId : String
  sku : String
  barcode : String
  attributes : List (String × String)
  price : ℚ
  stock : ℚ
  reorderThreshold : Option ℚ
  updatedAt : Nat
deriving DecidableEq, Repr

/-- A StockHistory document (`stockHistorySchema`). -/
structure StockHistoryEntry where
  skuId : String
  productId : String
  change : ℚ
  previousStock : ℚ
  newStock : ℚ
  reason : String
  referenceOrderId : Option String
  changedBy : Option String
deriving DecidableEq, Repr

/-- A snapshot line item inside an order document. -/
structure OrderLineItem where
  skuId : String
  productId : String
  sku : String
  quantity : ℕ
  unitPrice : ℚ
  lineTotal : ℚ
  attributes : List (String × String)
deriving DecidableEq, Repr

/-- An Order document. -/
structure Order where
  _id : String
  orderNumber : String
  items : List OrderLineItem
  subTotal : ℚ
  tax : ℚ
  total : ℚ
  status : String
  createdBy : Option String
deriving DecidableEq, Repr

/-- A Product document (only the field the low-stock query projects). -/
structure Product where
  _id : String
  name : String
deriving DecidableEq, Repr

/-- The document store: SKU collection, append-only stock-history ledger,
order collection, product collection, and the global Settings value
`defaultReorderThreshold`. -/
structure DB where
  skus : List Sku
  history : List StockHistoryEntry
  orders : List Order
  products : List Product
  defaultReorderThreshold : ℚ
deriving DecidableEq, Repr

/-- `Sku.findById` over the collection. -/
def findSku (skus : List Sku) (id : String) : Option Sku :=
  skus.find? (fun s => s._id == id)

/-- `sku.save()`: replace the document with the given `_id`. -/
def saveSku (skus : List Sku) (s : Sku) : List Sku :=
  skus.map (fun t => if t._id == s._id then s else t)

/-- Result of a successful stock adjustment: the updated SKU and the ledger
entry written for it. -/
structure AdjustResult where
  sku : Sku
  history : StockHistoryEntry
deriving DecidableEq, Repr

/-- `adjustStockInternal(skuId, delta, reason, userId, session, options)`
from the SKU service: look the SKU up in the session, compute
`newStock = previousStock + delta`, reject a non-finite result
(`Invalid stock delta`) and a negative result (`Stock cannot be negative`),
otherwise save the SKU with the new stock and append one ledger entry.
`previousStock` is a finite rational, so `previousStock + delta` is
non-finite exactly when `delta` is. -/
def adjustStockInternal (db : DB) (skuId : String) (delta : JsNum)
    (reason : String) (userId : Option String) (now : Nat)
    (referenceOrderId : Option String) :
    Except HttpError (AdjustResult × DB) :=
  match findSku db.skus skuId with
  | none => .error ⟨"SKU not found", 404, .SKU_NOT_FOUND⟩
  | some sku =>
    match delta with
    | .fin d =>
      let previousStock := sku.stock
      let newStock := previousStock + d
      if newStock < 0 then
        .error ⟨"Stock cannot be negative", 400, .INSUFFICIENT_STOCK⟩
      else
        let sku' := { sku with stock := newStock, updatedAt := now }
        let entry : StockHistoryEntry :=
          { skuId := sku._id
            productId := sku.productId
            change := d
            previousStock := previousStock
            newStock := newStock
            reason := reason
            referenceOrderId := referenceOrderId
            changedBy := userId }
        .ok (⟨sku', entry⟩,
          { db with skus := saveSku db.skus sku'
                    history := db.history ++ [entry] })
    | _ => .error ⟨"Invalid stock delta", 400, .INVALID_INPUT⟩

/-- The guard `delta == null || Number(delta) === 0` of `adjustStock`. -/
def deltaInvalid : Option JsNum → Bool
  | none => true
  | some d => d.isZero

/-- The guard `!reason` of `adjustStock` (absent or empty string). -/
def reasonMissing : Option String → Bool
  | none => true
  | some s => s == ""

/-- `adjustStock` body: the two fail-fast validations followed by
`adjustStockInternal`; this is the path taken when an external session is
supplied (the caller owns commit/abort). -/
def adjustStockChecked (db : DB) (skuId : String) (delta : Option JsNum)
    (reason : Option String) (userId : Option String) (now : Nat)
    (referenceOrderId : Option String) :
    Except HttpError (AdjustResult × DB) :=
  if deltaInvalid delta then
    .error ⟨"Stock delta must be a non-zero number", 400, .INVALID_INPUT⟩
  else if reasonMissing reason then
    .error ⟨"Stock adjustment reason is required", 400, .INVALID_INPUT⟩
  else
    adjustStockInternal db skuId (delta.getD (.fin 0)) (reason.getD "")
      userId now referenceOrderId

/-- `adjustStock` with no external session: it opens its own transaction,
commits on success and aborts (restoring the original database) on error,
rethrowing the original error. -/
def adjustStock (db : DB) (skuId : String) (delta : Option JsNum)
    (reason : Option String) (userId : Option String) (now : Nat) :
    Except HttpError AdjustResult × DB :=
  match adjustStockChecked db skuId delta reason userId now none with
  | .ok (r, db') => (.ok r, db')
  | .error e => (.error e, db)

/-- One standalone `adjustStock` invocation. -/
structure AdjustCall where
  skuId : String
  delta : Option JsNum
  reason : Option String
  userId : Option String
  now : Nat
deriving DecidableEq, Repr

/-- Apply a sequence of standalone `adjustStock` calls, keeping whatever
state each call leaves behind. -/
def applyAdjustments (db : DB) (calls : List AdjustCall) : DB :=
  calls.foldl
    (fun d c => (adjustStock d c.skuId c.delta c.reason c.userId c.now).2) db

/-- One request of a `bulkUpdateStock` batch. -/
structure BulkAdjustment where
  skuId : Option String
  delta : Option JsNum
  reason : Option String
  userId : Option String
  referenceOrderId : Option String
deriving DecidableEq, Repr

/-- The guard `!skuId` (absent or empty string, both falsy). -/
def skuIdMissing : Option String → Bool
  | none => true
  | some s => s == ""

/-- The per-request guard of `bulkUpdateStock`:
`!skuId || delta == null || !reason`. -/
def bulkPayloadInvalid (a : BulkAdjustment) : Bool :=
  skuIdMissing a.skuId || a.delta.isNone || reasonMissing a.reason

/-- The transactional body of `bulkUpdateStock`: requests are processed in
order inside one shared session, each one validated and then applied with
`adjustStockInternal`; the first error stops the loop. -/
def bulkUpdateStockTx (db : DB) (adjustments : List BulkAdjustment)
    (now : Nat) : Except HttpError (List AdjustResult × DB) :=
  match adjustments with
  | [] => .ok ([], db)
  | a :: rest =>
    if bulkPayloadInvalid a then
      .error ⟨"Invalid stock adjustment payload", 400, .INVALID_INPUT⟩
    else
      match adjustStockInternal db (a.skuId.getD "") (a.delta.getD (.fin 0))
          (a.reason.getD "") a.userId now a.referenceOrderId with
      | .error e => .error e
      | .ok (r, db') =>
        match bulkUpdateStockTx db' rest now with
        | .error e => .error e
        | .ok (rs, db'') => .ok (r :: rs, db'')

/-- `bulkUpdateStock(adjustments)`: an empty batch returns `{results: []}`
without opening a transaction; otherwise the whole batch runs in one
transaction that commits on success and is rolled back entirely on the
first failure, which is rethrown. -/
def bulkUpdateStock (db : DB) (adjustments : List BulkAdjustment)
    (now : Nat) : Except HttpError (List AdjustResult) × DB :=
  match adjustments with
  | [] => (.ok [], db)
  | _ =>
    match bulkUpdateStockTx db adjustments now with
    | .ok (rs, db') => (.ok rs, db')
    | .error e => (.error e, db)

/-! ### Order-number generator (`src/utils/generateOrderNumber.js`) -/

/-- Left-pad a decimal numeral with zeros to the given width. -/
def padNum (width : Nat) (n : Nat) : String :=
  let s := Nat.repr n
  String.mk (List.replicate (width - s.length) '0') ++ s

/-- The components of a `Date` as rendered by `toISOString` (UTC). -/
structure DateParts where
  year : Nat
  month : Nat
  day : Nat
  hour : Nat
  minute : Nat
  second : Nat
  millis : Nat
deriving DecidableEq, Repr

/-- `Date.prototype.toISOString`: `YYYY-MM-DDTHH:mm:ss.sssZ`. -/
def toISOString (t : DateParts) : String :=
  padNum 4 t.year ++ "-" ++ padNum 2 t.month ++ "-" ++ padNum 2 t.day ++
    "T" ++ padNum 2 t.hour ++ ":" ++ padNum 2 t.minute ++ ":" ++
    padNum 2 t.second ++ "." ++ padNum 3 t.millis ++ "Z"

/-- The characters `replace(/[-:TZ.]/g, '')` keeps. -/
def isKeptChar (c : Char) : Bool :=
  !(c == '-' || c == ':' || c == 'T' || c == 'Z' || c == '.')

/-- `replace(/[-:TZ.]/g, '')`: drop every `-`, `:`, `T`, `Z` and `.`. -/
def stripDateSeparators (s : String) : String :=
  String.mk (s.data.filter isKeptChar)

/-- `String.prototype.slice(0, n)`: the first `n` characters. -/
def sliceTo (n : Nat) (s : String) : String :=
  String.mk (s.data.take n)

/-- `split('-')[0]`: the characters before the first `-` (the whole string
when there is none). -/
def firstDashGroup (s : String) : String :=
  String.mk (s.data.takeWhile (fun c => c ≠ '-'))

/-- `toUpperCase()`. -/
def upcase (s : String) : String :=
  String.mk (s.data.map Char.toUpper)

/-- `generateOrderNumber()`, with the current time and the generated uuid
made explicit inputs: `ORD-` + the first 14 characters of the separator-
stripped ISO timestamp + `-` + the first `-`-separated group of the uuid,
upper-cased.  It consults no store. -/
def generateOrderNumber (t : DateParts) (uuid : String) : String :=
  let timestamp := sliceTo 14 (stripDateSeparators (toISOString t))
  let uniqueSuffix := upcase (firstDashGroup uuid)
  "ORD-" ++ timestamp ++ "-" ++ uniqueSuffix

/-! ### Order transaction coordinator (order service `createOrder`) -/

/-- `Number(value).toFixed(2)` on an exact rational: round to the nearest
hundredth. -/
def round2 (q : ℚ) : ℚ := (⌊q * 100 + 1 / 2⌋ : ℚ) / 100

/-- One entry of the `items` array of a `createOrder` payload.  A `none`
`skuId` models an absent/falsy `skuId` (also covering a null array entry,
which fails the same `!item || !item.skuId` guard); a `none` quantity
models an absent one (`Number(undefined)` is `NaN`). -/
structure OrderItemInput where
  skuId : Option String
  quantity : Option JsNum
deriving DecidableEq, Repr

/-- The `createOrder` payload. `items = none` models a missing or
non-array `items` field. -/
structure CreateOrderData where
  items : Option (List OrderItemInput)
  tax : Option JsNum
  taxRate : Option JsNum
deriving DecidableEq, Repr

/-- `toPositiveInteger(value)`: `Number(value)` must be an integer `> 0`. -/
def toPositiveInteger (value : Option JsNum) : Except HttpError ℕ :=
  match value with
  | some (.fin q) =>
    if q.den = 1 ∧ 0 < q.num then .ok q.num.toNat
    else .error ⟨"Quantity must be a positive integer", 400, .INVALID_INPUT⟩
  | _ => .error ⟨"Quantity must be a positive integer", 400, .INVALID_INPUT⟩

/-- The validation/snapshot loop of `createOrder`: for each item in input
order, require a truthy `skuId`, a positive integer quantity, an existing
SKU and sufficient stock; accumulate the snapshots and the running
`subTotal`. -/
def prepareItems (skus : List Sku) :
    List OrderItemInput → Except HttpError (List OrderLineItem × ℚ)
  | [] => .ok ([], 0)
  | item :: rest =>
    if skuIdMissing item.skuId then
      .error ⟨"Each order item must include skuId", 400, .INVALID_INPUT⟩
    else
      match toPositiveInteger item.quantity with
      | .error e => .error e
      | .ok quantity =>
        match findSku skus (item.skuId.getD "") with
        | none => .error ⟨"SKU not found", 404, .SKU_NOT_FOUND⟩
        | some sku =>
          if sku.stock < (quantity : ℚ) then
            .error ⟨"Insufficient stock for SKU " ++ sku.sku, 400,
              .INSUFFICIENT_STOCK⟩
          else
            let lineTotal := (quantity : ℚ) * sku.price
            match prepareItems skus rest with
            | .error e => .error e
            | .ok (items, subTotal) =>
              .ok (⟨sku._id, sku.productId, sku.sku, quantity, sku.price,
                lineTotal, sku.attributes⟩ :: items, lineTotal + subTotal)

/-- The tax computation of `createOrder`: an explicit `tax` wins and must
be a finite number `≥ 0`; else a `taxRate` must be finite `≥ 0` and yields
`Number((subTotal * taxRate).toFixed(2))`; else the tax is `0`. -/
def computeTax (data : CreateOrderData) (subTotal : ℚ) :
    Except HttpError ℚ :=
  match data.tax with
  | some t =>
    match t with
    | .fin q =>
      if q < 0 then
        .error ⟨"tax must be a non-negative number", 400, .INVALID_INPUT⟩
      else .ok q
    | _ => .error ⟨"tax must be a non-negative number", 400, .INVALID_INPUT⟩
  | none =>
    match data.taxRate with
    | some r =>
      match r with
      | .fin q =>
        if q < 0 then
          .error ⟨"taxRate must be a non-negative number", 400,
            .INVALID_INPUT⟩
        else .ok (round2 (subTotal * q))
      | _ =>
        .error ⟨"taxRate must be a non-negative number", 400, .INVALID_INPUT⟩
    | none => .ok 0

/-- The per-line-item stock deduction loop of `createOrder`: each prepared
item is deducted with `adjustStock` (session path) using
`delta = -quantity`, `reason = order:<orderNumber>` and the pre-allocated
order id as reference. -/
def deductItems (db : DB) (items : List OrderLineItem) (orderNumber : String)
    (userId : Option String) (now : Nat) (orderId : String) :
    Except HttpError DB :=
  match items with
  | [] => .ok db
  | item :: rest =>
    match adjustStockChecked db item.skuId
        (some (.fin (-(item.quantity : ℚ)))) (some ("order:" ++ orderNumber))
        userId now (some orderId) with
    | .error e => .error e
    | .ok (_, db') => deductItems db' rest orderNumber userId now orderId

/-- What `createOrder` returns: the saved order document plus the
`totalItems` count added to the response object. -/
structure OrderResponse where
  order : Order
  totalItems : ℕ
deriving DecidableEq, Repr

/-- The transactional body of `createOrder`: validate the items list,
generate the order number, validate and snapshot every line item, compute
the totals, deduct stock per line item, and save the order — in source
order, threading one session. `t`/`uuid` make the clock and uuid of
`generateOrderNumber` explicit and `orderId` the pre-allocated
`orderDoc._id`. -/
def createOrderTx (db : DB) (data : CreateOrderData)
    (userId : Option String) (t : DateParts) (uuid : String)
    (orderId : String) (now : Nat) :
    Except HttpError (OrderResponse × DB) :=
  match data.items with
  | none => .error ⟨"Order items are required", 400, .INVALID_INPUT⟩
  | some items =>
    if items.isEmpty then
      .error ⟨"Order items are required", 400, .INVALID_INPUT⟩
    else
      let orderNumber := generateOrderNumber t uuid
      match prepareItems db.skus items with
      | .error e => .error e
      | .ok (preparedItems, subTotal) =>
        match computeTax data subTotal with
        | .error e => .error e
        | .ok tax =>
          let total := subTotal + tax
          let orderDoc : Order :=
            { _id := orderId
              orderNumber := orderNumber
              items := preparedItems
              subTotal := round2 subTotal
              tax := round2 tax
              total := round2 total
              status := "completed"
              createdBy := userId }
          match deductItems db preparedItems orderNumber userId now
              orderId with
          | .error e => .error e
          | .ok db' =>
            .ok (⟨orderDoc,
                (preparedItems.map (fun i => i.quantity)).sum⟩,
              { db' with orders := db'.orders ++ [orderDoc] })

/-- `createOrder(data, userId)`: run the transactional body; commit its
state on success, abort (restoring the original database) and rethrow the
original error on failure. -/
def createOrder (db : DB) (data : CreateOrderData) (userId : Option String)
    (t : DateParts) (uuid : String) (orderId : String) (now : Nat) :
    Except HttpError OrderResponse × DB :=
  match createOrderTx db data userId t uuid orderId now with
  | .ok (resp, db') => (.ok resp, db')
  | .error e => (.error e, db)

/-! ### Low-stock query (`findLowStock`) -/

/-- One row of the `findLowStock` projection. -/
structure LowStockRow where
  skuId : String
  productId : String
  productName : Option String
  sku : String
  stock : ℚ
  reorderThreshold : ℚ
deriving DecidableEq, Repr

/-- The `$match` stage of `findLowStock`:
`(reorderThreshold ≠ null ∧ stock ≤ reorderThreshold) ∨
 stock ≤ defaultThreshold`. -/
def lowStockMatch (defaultThreshold : ℚ) (s : Sku) : Bool :=
  (match s.reorderThreshold with
   | some t => decide (s.stock ≤ t)
   | none => false) || decide (s.stock ≤ defaultThreshold)

/-- The `$lookup`/`$unwind`/`$project` stages of `findLowStock` applied to
one matched SKU. -/
def toLowStockRow (products : List Product) (defaultThreshold : ℚ)
    (s : Sku) : LowStockRow :=
  { skuId := s._id
    productId := s.productId
    productName := (products.find? (fun p => p._id == s.productId)).map
      (fun p => p.name)
    sku := s.sku
    stock := s.stock
    reorderThreshold := s.reorderThreshold.getD defaultThreshold }

/-- The `$sort: { stock: 1, sku: 1 }` order on projected rows. -/
def lowStockLE (a b : LowStockRow) : Bool :=
  a.stock < b.stock || (a.stock == b.stock && decide (a.sku ≤ b.sku))

/-- Insert into a list sorted by `le`. -/
def insertSorted (le : α → α → Bool) (x : α) : List α → List α
  | [] => [x]
  | y :: ys => if le x y then x :: y :: ys else y :: insertSorted le x ys

/-- Insertion sort by `le`. -/
def sortByLe (le : α → α → Bool) : List α → List α
  | [] => []
  | x :: xs => insertSorted le x (sortByLe le xs)

/-- `findLowStock()`: read the global default threshold, match, project and
sort; a pure read of the store. -/
def findLowStock (db : DB) : List LowStockRow :=
  let defaultThreshold := db.defaultReorderThreshold
  sortByLe lowStockLE
    ((db.skus.filter (lowStockMatch defaultThreshold)).map
      (toLowStockRow db.products defaultThreshold))

/-- The spec's notion of effective threshold, for comparison with the code:
"the SKU's own reorderThreshold if set, else the global default reorder
threshold from Settings". -/
def specEffectiveThreshold (defaultThreshold : ℚ) (s : Sku) : ℚ :=
  s.reorderThreshold.getD defaultThreshold

/-! ## Fixtures used by the concrete witnesses -/

/-- Fixture SKU: price 10, stock 5, own threshold 5. -/
def skuA : Sku :=
  ⟨"skuA", "prodA", "SKU-A", "1000001", [("color", "red")], 10, 5, some 5, 0⟩

/-- Fixture SKU: price 5.50, stock 3, own threshold 2. -/
def skuB : Sku :=
  ⟨"skuB", "prodB", "SKU-B", "1000002", [], 11 / 2, 3, some 2, 0⟩

/-- Fixture SKU: price 4, stock 0, no own threshold. -/
def skuZ : Sku :=
  ⟨"skuZ", "prodZ", "SKU-Z", "1000003", [], 4, 0, none, 0⟩

/-- Fixture store with the three SKUs, an empty ledger and no orders. -/
def baseDb : DB :=
  ⟨[skuA, skuB, skuZ], [], [], [⟨"prodA", "Product A"⟩], 3⟩

/-! ## Inversion lemmas for the stock adjustment engine -/

theorem findSku_id {skus : List Sku} {id : String} {s : Sku}
    (h : findSku skus id = some s) : s._id = id := by
  have := List.find?_some h
  simpa using this

theorem adjustStockInternal_ok {db : DB} {skuId : String} {delta : JsNum}
    {reason : String} {uid : Option String} {now : Nat}
    {ref : Option String} {r : AdjustResult} {db' : DB}
    (h : adjustStockInternal db skuId delta reason uid now ref =
      .ok (r, db')) :
    ∃ sku d, findSku db.skus skuId = some sku ∧ delta = .fin d ∧
      0 ≤ sku.stock + d ∧
      r.sku = { sku with stock := sku.stock + d, updatedAt := now } ∧
      r.history = ⟨sku._id, sku.productId, d, sku.stock, sku.stock + d,
        reason, ref, uid⟩ ∧
      db' = { db with skus := saveSku db.skus r.sku,
                      history := db.history ++ [r.history] } := by
  unfold adjustStockInternal at h
  cases hf : findSku db.skus skuId with
  | none => rw [hf] at h; exact absurd h (by simp)
  | some sku =>
    rw [hf] at h
    cases delta with
    | fin d =>
      dsimp only at h
      by_cases hlt : sku.stock + d < 0
      · rw [if_pos hlt] at h; exact absurd h (by simp)
      · rw [if_neg hlt] at h
        obtain ⟨hr, hdb⟩ := by simpa using h
        refine ⟨sku, d, rfl, rfl, le_of_not_lt hlt, ?_, ?_, ?_⟩
        · exact hr ▸ rfl
        · exact hr ▸ rfl
        · rw [← hdb, ← hr]
    | posInf => exact absurd h (by simp)
    | negInf => exact absurd h (by simp)
    | nan => exact absurd h (by simp)

theorem adjustStockInternal_error_cases {db : DB} {skuId : String}
    {delta : JsNum} {reason : String} {uid : Option String} {now : Nat}
    {ref : Option String} :
    (findSku db.skus skuId = none →
      adjustStockInternal db skuId delta reason uid now ref =
        .error ⟨"SKU not found", 404, .SKU_NOT_FOUND⟩) ∧
    (∀ sku, findSku db.skus skuId = some sku →
      (JsNum.add (.fin sku.stock) delta).isFinite = false →
      adjustStockInternal db skuId delta reason uid now ref =
        .error ⟨"Invalid stock delta", 400, .INVALID_INPUT⟩) ∧
    (∀ sku d, findSku db.skus skuId = some sku → delta = .fin d →
      sku.stock + d < 0 →
      adjustStockInternal db skuId delta reason uid now ref =
        .error ⟨"Stock cannot be negative", 400, .INSUFFICIENT_STOCK⟩) := by
  refine ⟨fun hf => by simp [adjustStockInternal, hf], ?_, ?_⟩
  · intro sku hf hnf
    unfold adjustStockInternal
    rw [hf]
    cases delta with
    | fin d => simp [JsNum.add, JsNum.isFinite] at hnf
    | posInf => rfl
    | negInf => rfl
    | nan => rfl
  · intro sku d hf hd hlt
    unfold adjustStockInternal
    rw [hf, hd]
    simp only [hlt, if_true]

theorem adjustStock_of_checked_ok {db : DB} {skuId : String}
    {delta : Option JsNum} {reason : Option String} {uid : Option String}
    {now : Nat} {r : AdjustResult} {db' : DB}
    (h : adjustStockChecked db skuId delta reason uid now none =
      .ok (r, db')) :
    adjustStock db skuId delta reason uid now = (.ok r, db') := by
  unfold adjustStock
  rw [h]

theorem adjustStock_of_checked_error {db : DB} {skuId : String}
    {delta : Option JsNum} {reason : Option String} {uid : Option String}
    {now : Nat} {e : HttpError}
    (h : adjustStockChecked db skuId delta reason uid now none = .error e) :
    adjustStock db skuId delta reason uid now = (.error e, db) := by
  unfold adjustStock
  rw [h]

/-- **C7.** `adjustStock` raises `InvalidInput` when `delta` is null or
coerces to 0, or when `reason` is absent/empty, before any mutation; a
delta that makes the resulting stock non-finite raises `InvalidInput`, and
an unresolvable `skuId` raises `NotFound`; in every case the database is
returned unchanged. -/
theorem adjustStock_validation (db : DB) (skuId : String)
    (delta : Option JsNum) (reason : Option String) (uid : Option String)
    (now : Nat) :
    (deltaInvalid delta = true →
      adjustStock db skuId delta reason uid now =
        (.error ⟨"Stock delta must be a non-zero number", 400,
          .INVALID_INPUT⟩, db)) ∧
    (deltaInvalid delta = false → reasonMissing reason = true →
      adjustStock db skuId delta reason uid now =
        (.error ⟨"Stock adjustment reason is required", 400,
          .INVALID_INPUT⟩, db)) ∧
    (deltaInvalid delta = false → reasonMissing reason = false →
      findSku db.skus skuId = none →
      adjustStock db skuId delta reason uid now =
        (.error ⟨"SKU not found", 404, .SKU_NOT_FOUND⟩, db)) ∧
    (∀ sku d, deltaInvalid delta = false → reasonMissing reason = false →
      findSku db.skus skuId = some sku → delta = some d →
      (JsNum.add (.fin sku.stock) d).isFinite = false →
      adjustStock db skuId delta reason uid now =
        (.error ⟨"Invalid stock delta", 400, .INVALID_INPUT⟩, db)) := by
  refine ⟨?_, ?_, ?_, ?_⟩
  · intro hd
    exact adjustStock_of_checked_error (by simp [adjustStockChecked, hd])
  · intro hd hr
    exact adjustStock_of_checked_error (by simp [adjustStockChecked, hd, hr])
  · intro hd hr hf
    refine adjustStock_of_checked_error ?_
    simp only [adjustStockChecked, hd, hr, Bool.false_eq_true, if_false]
    exact adjustStockInternal_error_cases.1 hf
  · intro sku d hd hr hf hdlt hnf
    subst hdlt
    refine adjustStock_of_checked_error ?_
    simp only [adjustStockChecked, hd, hr, Bool.false_eq_true, if_false,
      Option.getD_some]
    exact adjustStockInternal_error_cases.2.1 sku hf hnf

/-- Witness for C7: the four validation failures at concrete inputs, all
leaving the store untouched. -/
theorem adjustStock_validation_witness :
    adjustStock baseDb "skuA" none (some "recount") none 1 =
      (.error ⟨"Stock delta must be a non-zero number", 400,
        .INVALID_INPUT⟩, baseDb) ∧
    adjustStock baseDb "skuA" (some (.fin 2)) none none 1 =
      (.error ⟨"Stock adjustment reason is required", 400,
        .INVALID_INPUT⟩, baseDb) ∧
    adjustStock baseDb "ghost" (some (.fin 2)) (some "recount") none 1 =
      (.error ⟨"SKU not found", 404, .SKU_NOT_FOUND⟩, baseDb) ∧
    adjustStock baseDb "skuA" (some .nan) (some "recount") none 1 =
      (.error ⟨"Invalid stock delta", 400, .INVALID_INPUT⟩, baseDb) := by
  refine ⟨(adjustStock_validation baseDb "skuA" none (some "recount")
      none 1).1 rfl,
    (adjustStock_validation baseDb "skuA" (some (.fin 2)) none none 1).2.1
      (by norm_num [deltaInvalid, JsNum.isZero]) rfl,
    (adjustStock_validation baseDb "ghost" (some (.fin 2)) (some "recount")
      none 1).2.2.1 (by norm_num [deltaInvalid, JsNum.isZero]) rfl
      (by decide),
    (adjustStock_validation baseDb "skuA" (some .nan) (some "recount")
      none 1).2.2.2 skuA .nan rfl rfl (by decide) rfl rfl⟩

/-! ## Non-negativity of stock -/

/-- Every SKU in the store has non-negative stock. -/
def nonnegDB (db : DB) : Prop := ∀ s ∈ db.skus, 0 ≤ s.stock

theorem adjustStockChecked_ok_elim {db : DB} {skuId : String}
    {delta : Option JsNum} {reason : Option String} {uid : Option String}
    {now : Nat} {ref : Option String} {r : AdjustResult} {db' : DB}
    (h : adjustStockChecked db skuId delta reason uid now ref =
      .ok (r, db')) :
    deltaInvalid delta = false ∧ reasonMissing reason = false ∧
      adjustStockInternal db skuId (delta.getD (.fin 0)) (reason.getD "")
        uid now ref = .ok (r, db') := by
  unfold adjustStockChecked at h
  by_cases h1 : deltaInvalid delta = true
  · rw [if_pos (by simp [h1])] at h; exact absurd h (by simp)
  · rw [if_neg (by simp [h1])] at h
    by_cases h2 : reasonMissing reason = true
    · rw [if_pos (by simp [h2])] at h; exact absurd h (by simp)
    · rw [if_neg (by simp [h2])] at h
      exact ⟨Bool.eq_false_iff.2 h1, Bool.eq_false_iff.2 h2, h⟩

theorem adjustStock_ok_elim {db : DB} {skuId : String}
    {delta : Option JsNum} {reason : Option String} {uid : Option String}
    {now : Nat} {r : AdjustResult}
    (h : (adjustStock db skuId delta reason uid now).1 = .ok r) :
    adjustStockChecked db skuId delta reason uid now none =
      .ok (r, (adjustStock db skuId delta reason uid now).2) := by
  unfold adjustStock at h ⊢
  cases hc : adjustStockChecked db skuId delta reason uid now none with
  | error e => rw [hc] at h; exact absurd h (by simp)
  | ok p =>
    obtain ⟨r', db'⟩ := p
    rw [hc] at h
    obtain rfl : r' = r := by simpa using h
    rfl

theorem adjustStock_error_elim {db : DB} {skuId : String}
    {delta : Option JsNum} {reason : Option String} {uid : Option String}
    {now : Nat} {e : HttpError}
    (h : (adjustStock db skuId delta reason uid now).1 = .error e) :
    (adjustStock db skuId delta reason uid now).2 = db ∧
      adjustStockChecked db skuId delta reason uid now none = .error e := by
  unfold adjustStock at h ⊢
  cases hc : adjustStockChecked db skuId delta reason uid now none with
  | error e' =>
    rw [hc] at h
    obtain rfl : e' = e := by simpa using h
    exact ⟨rfl, rfl⟩
  | ok p =>
    obtain ⟨r', db'⟩ := p
    rw [hc] at h
    exact absurd h (by simp)

theorem mem_saveSku {skus : List Sku} {s t : Sku}
    (ht : t ∈ saveSku skus s) : t = s ∨ t ∈ skus := by
  unfold saveSku at ht
  obtain ⟨u, hu, hut⟩ := List.mem_map.1 ht
  by_cases hid : u._id == s._id
  · rw [if_pos hid] at hut; exact Or.inl hut.symm
  · rw [if_neg hid] at hut; exact Or.inr (hut ▸ hu)

theorem nonneg_adjustStock {db : DB} (h : nonnegDB db) (c : AdjustCall) :
    nonnegDB (adjustStock db c.skuId c.delta c.reason c.userId c.now).2 := by
  cases hr : (adjustStock db c.skuId c.delta c.reason c.userId c.now).1 with
  | error e => rw [(adjustStock_error_elim hr).1]; exact h
  | ok r =>
    have hc := adjustStockChecked_ok_elim (adjustStock_ok_elim hr)
    obtain ⟨sku, d, hf, hd, hge, hsku, hhist, hdb⟩ :=
      adjustStockInternal_ok hc.2.2
    rw [hdb]
    intro t ht
    rcases mem_saveSku ht with rfl | htin
    · rw [hsku]; exact hge
    · exact h t htin

theorem nonneg_applyAdjustments {db : DB} (calls : List AdjustCall)
    (h : nonnegDB db) : nonnegDB (applyAdjustments db calls) := by
  induction calls generalizing db with
  | nil => exact h
  | cons c cs ih =>
    have hstep := nonneg_adjustStock h c
    exact ih hstep

/-- **C2.** Starting from a store with non-negative stock, every prefix of
a sequence of `adjustStock` calls leaves every SKU's stock `≥ 0`; a failed
call leaves the store (stock and ledger) unchanged; and a call whose
resulting stock would be negative fails with `InsufficientStock` and
changes nothing. -/
theorem stock_nonneg_invariant (db : DB) (calls : List AdjustCall)
    (h : nonnegDB db) :
    (∀ n, nonnegDB (applyAdjustments db (calls.take n))) ∧
    (∀ skuId delta reason uid now e,
      (adjustStock db skuId delta reason uid now).1 = .error e →
      (adjustStock db skuId delta reason uid now).2 = db) ∧
    (∀ skuId sku d reason uid now,
      deltaInvalid (some (.fin d)) = false →
      reasonMissing reason = false →
      findSku db.skus skuId = some sku → sku.stock + d < 0 →
      adjustStock db skuId (some (.fin d)) reason uid now =
        (.error ⟨"Stock cannot be negative", 400, .INSUFFICIENT_STOCK⟩,
          db)) := by
  refine ⟨fun n => nonneg_applyAdjustments _ h, ?_, ?_⟩
  · intro skuId delta reason uid now e he
    exact (adjustStock_error_elim he).1
  · intro skuId sku d reason uid now hd hr hf hlt
    refine adjustStock_of_checked_error ?_
    simp only [adjustStockChecked, hd, hr, Bool.false_eq_true, if_false,
      Option.getD_some]
    exact adjustStockInternal_error_cases.2.2 sku d hf rfl hlt

/-- Witness for C2: adjusting the zero-stock SKU by −1 fails with
`InsufficientStock` and leaves the store — including its empty ledger —
unchanged, and the store stays non-negative under that call. -/
theorem stock_nonneg_invariant_witness :
    adjustStock baseDb "skuZ" (some (.fin (-1))) (some "order:Y") none 2 =
      (.error ⟨"Stock cannot be negative", 400, .INSUFFICIENT_STOCK⟩,
        baseDb) ∧
    nonnegDB (applyAdjustments baseDb
      ([⟨"skuZ", some (.fin (-1)), some "order:Y", none, 2⟩].take 1)) := by
  have h := stock_nonneg_invariant baseDb
    [⟨"skuZ", some (.fin (-1)), some "order:Y", none, 2⟩]
    (by intro s hs; fin_cases hs <;> norm_num [skuA, skuB, skuZ])
  exact ⟨h.2.2 "skuZ" skuZ (-1) (some "order:Y") none 2
      (by norm_num [deltaInvalid, JsNum.isZero]) rfl rfl
      (by norm_num [skuZ]),
    h.1 1⟩

/-! ## Ledger completeness -/

/-- The sum of the ledger `change` values recorded for one SKU. -/
def ledgerSum (db : DB) (sid : String) : ℚ :=
  ((db.history.filter (fun e => e.skuId == sid)).map
    (fun e => e.change)).sum

/-- The current stock recorded for one SKU (0 when absent). -/
def stockOf (db : DB) (sid : String) : ℚ :=
  ((findSku db.skus sid).map (fun s => s.stock)).getD 0

theorem findSku_saveSku_self {skus : List Sku} {id : String} {sku s : Sku}
    (hf : findSku skus id = some sku) (hid : s._id = id) :
    findSku (saveSku skus s) id = some s := by
  induction skus with
  | nil => simp [findSku] at hf
  | cons t ts ih =>
    have hsave : saveSku (t :: ts) s =
        (if t._id == s._id then s else t) :: saveSku ts s := rfl
    by_cases ht : (t._id == id) = true
    · have h1 : (t._id == s._id) = true := by rw [hid]; exact ht
      unfold findSku
      rw [hsave, if_pos (by simp [h1])]
      exact List.find?_cons_of_pos _ (by simp [hid])
    · have h1 : (t._id == s._id) = false := by
        rw [hid]; exact Bool.eq_false_iff.2 (by simpa using ht)
      have hf' : findSku ts id = some sku := by
        unfold findSku at hf
        rwa [List.find?_cons_of_neg _ (by simpa using ht)] at hf
      unfold findSku
      rw [hsave, if_neg (by simp [h1]),
        List.find?_cons_of_neg _ (by simpa using ht)]
      exact ih hf'

theorem findSku_saveSku_other {skus : List Sku} {id : String} {s : Sku}
    (hid : s._id ≠ id) :
    findSku (saveSku skus s) id = findSku skus id := by
  induction skus with
  | nil => rfl
  | cons t ts ih =>
    have hsave : saveSku (t :: ts) s =
        (if t._id == s._id then s else t) :: saveSku ts s := rfl
    have hs : (s._id == id) = false := by simpa using hid
    by_cases hts : (t._id == s._id) = true
    · have htid : t._id = s._id := by simpa using hts
      have htid' : (t._id == id) = false := by rw [htid]; exact hs
      unfold findSku
      rw [hsave, if_pos (by simp [hts]),
        List.find?_cons_of_neg _ (by simp [hs]),
        List.find?_cons_of_neg _ (by simp [htid'])]
      exact ih
    · unfold findSku
      rw [hsave, if_neg (by simp [hts])]
      by_cases ht : (t._id == id) = true
      · rw [List.find?_cons_of_pos _ (by simpa using ht),
          List.find?_cons_of_pos _ (by simpa using ht)]
      · rw [List.find?_cons_of_neg _ (by simpa using ht),
          List.find?_cons_of_neg _ (by simpa using ht)]
        exact ih

theorem ledger_stock_step (db : DB) (c : AdjustCall) (sid : String) :
    ledgerSum (adjustStock db c.skuId c.delta c.reason c.userId c.now).2
        sid - ledgerSum db sid =
      stockOf (adjustStock db c.skuId c.delta c.reason c.userId c.now).2
        sid - stockOf db sid := by
  cases hr : (adjustStock db c.skuId c.delta c.reason c.userId c.now).1 with
  | error e => rw [(adjustStock_error_elim hr).1]; ring
  | ok r =>
    have hc := adjustStockChecked_ok_elim (adjustStock_ok_elim hr)
    obtain ⟨sku, d, hf, hd, hge, hsku, hhist, hdb⟩ :=
      adjustStockInternal_ok hc.2.2
    have hskuid : sku._id = c.skuId := findSku_id hf
    have hrid : r.sku._id = c.skuId := by rw [hsku]; exact hskuid
    by_cases hsid : c.skuId = sid
    · subst hsid
      have hfind : findSku (saveSku db.skus r.sku) c.skuId = some r.sku :=
        findSku_saveSku_self hf hrid
      have hledger : ledgerSum
          (adjustStock db c.skuId c.delta c.reason c.userId c.now).2
            c.skuId = ledgerSum db c.skuId + d := by
        rw [hdb]
        simp [ledgerSum, List.filter_append, hhist, hskuid]
      have hstock : stockOf
          (adjustStock db c.skuId c.delta c.reason c.userId c.now).2
            c.skuId = sku.stock + d := by
        rw [hdb]
        show ((findSku (saveSku db.skus r.sku) c.skuId).map
          (fun s => s.stock)).getD 0 = sku.stock + d
        rw [hfind, hsku]
        rfl
      rw [hledger, hstock]
      simp [stockOf, hf]
    · have hfind : findSku (saveSku db.skus r.sku) sid =
          findSku db.skus sid :=
        findSku_saveSku_other (by rw [hrid]; exact hsid)
      have hledger : ledgerSum
          (adjustStock db c.skuId c.delta c.reason c.userId c.now).2 sid =
            ledgerSum db sid := by
        have hne : (r.history.skuId == sid) = false := by
          rw [hhist]
          simpa using fun hEq => hsid (hskuid ▸ hEq)
        rw [hdb]
        simp [ledgerSum, List.filter_append, hne]
      have hstock : stockOf
          (adjustStock db c.skuId c.delta c.reason c.userId c.now).2 sid =
            stockOf db sid := by
        rw [hdb]
        show ((findSku (saveSku db.skus r.sku) sid).map
          (fun s => s.stock)).getD 0 = stockOf db sid
        rw [hfind]
        rfl
      rw [hledger, hstock]
      ring

theorem ledger_stock_delta (calls : List AdjustCall) (db : DB)
    (sid : String) :
    ledgerSum (applyAdjustments db calls) sid - ledgerSum db sid =
      stockOf (applyAdjustments db calls) sid - stockOf db sid := by
  induction calls generalizing db with
  | nil => simp [applyAdjustments]
  | cons c cs ih =>
    have hstep := ledger_stock_step db c sid
    have htail := ih
      (adjustStock db c.skuId c.delta c.reason c.userId c.now).2
    have hfold : applyAdjustments db (c :: cs) =
        applyAdjustments
          (adjustStock db c.skuId c.delta c.reason c.userId c.now).2 cs :=
      rfl
    rw [hfold]
    linarith [htail, hstep]

/-- **C3.** A successful adjustment appends exactly one ledger entry with
`newStock = previousStock + change`, `previousStock` the stock before the
call and `newStock` the stock written, updating exactly the target SKU
row; consequently, over any sequence of adjustments, the ledger `change`
values for a SKU sum to `currentStock - initialStock`. -/
theorem ledger_completeness (db : DB) :
    (∀ skuId delta reason uid now r,
      (adjustStock db skuId delta reason uid now).1 = .ok r →
      (adjustStock db skuId delta reason uid now).2.history =
          db.history ++ [r.history] ∧
        r.history.newStock = r.history.previousStock + r.history.change ∧
        (∃ sku, findSku db.skus skuId = some sku ∧
          r.history.previousStock = sku.stock ∧
          r.sku.stock = r.history.newStock) ∧
        (adjustStock db skuId delta reason uid now).2.skus =
          saveSku db.skus r.sku) ∧
    (∀ calls sid,
      ledgerSum (applyAdjustments db calls) sid - ledgerSum db sid =
        stockOf (applyAdjustments db calls) sid - stockOf db sid) ∧
    (db.history = [] → ∀ calls sid,
      ledgerSum (applyAdjustments db calls) sid =
        stockOf (applyAdjustments db calls) sid - stockOf db sid) := by
  have hmain : ∀ calls sid,
      ledgerSum (applyAdjustments db calls) sid - ledgerSum db sid =
        stockOf (applyAdjustments db calls) sid - stockOf db sid :=
    fun calls sid => ledger_stock_delta calls db sid
  refine ⟨?_, hmain, ?_⟩
  · intro skuId delta reason uid now r hr
    have hc := adjustStockChecked_ok_elim (adjustStock_ok_elim hr)
    obtain ⟨sku, d, hf, hd, hge, hsku, hhist, hdb⟩ :=
      adjustStockInternal_ok hc.2.2
    refine ⟨by rw [hdb], ?_, ⟨sku, hf, by rw [hhist], ?_⟩, by rw [hdb]⟩
    · rw [hhist]
    · rw [hhist, hsku]
  · intro hempty calls sid
    have := hmain calls sid
    have hzero : ledgerSum db sid = 0 := by simp [ledgerSum, hempty]
    rw [hzero] at this
    linarith

/-- Witness for C3: a concrete successful adjustment of SKU-A by −3
appends the single expected entry, and the singleton call sequence
satisfies the sum law at that SKU. -/
theorem ledger_completeness_witness :
    ((adjustStock baseDb "skuA" (some (.fin (-3))) (some "recount") none
        7).2.history = baseDb.history ++
        [⟨"skuA", "prodA", -3, 5, 2, "recount", none, none⟩] ∧
      (5 : ℚ) + (-3) = 5 + (-3) ∧ True) ∧
    ledgerSum (applyAdjustments baseDb
        [⟨"skuA", some (.fin (-3)), some "recount", none, 7⟩]) "skuA" =
      stockOf (applyAdjustments baseDb
          [⟨"skuA", some (.fin (-3)), some "recount", none, 7⟩]) "skuA" -
        stockOf baseDb "skuA" := by
  have hok : (adjustStock baseDb "skuA" (some (.fin (-3)))
      (some "recount") none 7).1 = .ok
        ⟨{ skuA with stock := 2, updatedAt := 7 },
          ⟨"skuA", "prodA", -3, 5, 2, "recount", none, none⟩⟩ := by
    norm_num +decide [adjustStock, adjustStockChecked, adjustStockInternal,
      deltaInvalid, reasonMissing, findSku, saveSku, baseDb, skuA, skuB,
      skuZ, JsNum.isZero]
  have h := ledger_completeness baseDb
  have h1 := h.1 "skuA" (some (.fin (-3))) (some "recount") none 7 _ hok
  exact ⟨⟨h1.1, by norm_num, trivial⟩,
    h.2.2 rfl [⟨"skuA", some (.fin (-3)), some "recount", none, 7⟩]
      "skuA"⟩

/-! ## Frame property of a successful adjustment -/

/-- **C10.** A successful `adjustStock` call changes only the target SKU's
`stock` and `updatedAt`: every other field of the target document is
preserved, the store update replaces exactly that document, every other
SKU document survives unchanged, and the order collection is untouched. -/
theorem adjustStock_frame (db : DB) (skuId : String) (delta : Option JsNum)
    (reason : Option String) (uid : Option String) (now : Nat)
    (r : AdjustResult)
    (h : (adjustStock db skuId delta reason uid now).1 = .ok r) :
    ∃ sku₀, findSku db.skus skuId = some sku₀ ∧
      r.sku._id = sku₀._id ∧ r.sku.productId = sku₀.productId ∧
      r.sku.sku = sku₀.sku ∧ r.sku.barcode = sku₀.barcode ∧
      r.sku.attributes = sku₀.attributes ∧ r.sku.price = sku₀.price ∧
      r.sku.reorderThreshold = sku₀.reorderThreshold ∧
      r.sku.updatedAt = now ∧
      (adjustStock db skuId delta reason uid now).2.skus =
        saveSku db.skus r.sku ∧
      (∀ t ∈ db.skus, t._id ≠ skuId →
        t ∈ (adjustStock db skuId delta reason uid now).2.skus) ∧
      (adjustStock db skuId delta reason uid now).2.orders = db.orders := by
  have hc := adjustStockChecked_ok_elim (adjustStock_ok_elim h)
  obtain ⟨sku, d, hf, hd, hge, hsku, hhist, hdb⟩ :=
    adjustStockInternal_ok hc.2.2
  have hrid : r.sku._id = skuId := by
    rw [hsku]; exact (findSku_id hf : sku._id = skuId)
  refine ⟨sku, hf, by rw [hsku], by rw [hsku], by rw [hsku], by rw [hsku],
    by rw [hsku], by rw [hsku], by rw [hsku], by rw [hsku], by rw [hdb],
    ?_, by rw [hdb]⟩
  intro t ht htid
  rw [hdb]
  show t ∈ saveSku db.skus r.sku
  unfold saveSku
  refine List.mem_map.2 ⟨t, ht, ?_⟩
  simp [hrid, htid]

/-- Witness for C10: the −3 adjustment of SKU-A preserves all its fields
but stock/updatedAt, and leaves SKU-B and SKU-Z in the store unchanged. -/
theorem adjustStock_frame_witness :
    ∃ sku₀, findSku baseDb.skus "skuA" = some sku₀ ∧
      ({ skuA with stock := 2, updatedAt := 7 } : Sku)._id = sku₀._id ∧
      ({ skuA with stock := 2, updatedAt := 7 } : Sku).productId =
        sku₀.productId ∧
      ({ skuA with stock := 2, updatedAt := 7 } : Sku).sku = sku₀.sku ∧
      ({ skuA with stock := 2, updatedAt := 7 } : Sku).barcode =
        sku₀.barcode ∧
      ({ skuA with stock := 2, updatedAt := 7 } : Sku).attributes =
        sku₀.attributes ∧
      ({ skuA with stock := 2, updatedAt := 7 } : Sku).price = sku₀.price ∧
      ({ skuA with stock := 2, updatedAt := 7 } : Sku).reorderThreshold =
        sku₀.reorderThreshold ∧
      ({ skuA with stock := 2, updatedAt := 7 } : Sku).updatedAt = 7 ∧
      (adjustStock baseDb "skuA" (some (.fin (-3))) (some "recount") none
          7).2.skus = saveSku baseDb.skus
            { skuA with stock := 2, updatedAt := 7 } ∧
      (∀ t ∈ baseDb.skus, t._id ≠ "skuA" →
        t ∈ (adjustStock baseDb "skuA" (some (.fin (-3)))
          (some "recount") none 7).2.skus) ∧
      (adjustStock baseDb "skuA" (some (.fin (-3))) (some "recount") none
          7).2.orders = baseDb.orders := by
  have hok : (adjustStock baseDb "skuA" (some (.fin (-3)))
      (some "recount") none 7).1 = .ok
        ⟨{ skuA with stock := 2, updatedAt := 7 },
          ⟨"skuA", "prodA", -3, 5, 2, "recount", none, none⟩⟩ := by
    norm_num +decide [adjustStock, adjustStockChecked, adjustStockInternal,
      deltaInvalid, reasonMissing, findSku, saveSku, baseDb, skuA, skuB,
      skuZ, JsNum.isZero]
  exact adjustStock_frame baseDb "skuA" (some (.fin (-3)))
    (some "recount") none 7 _ hok

/-! ## Bulk stock updates -/

theorem bulkUpdateStockTx_error_of_invalid {adjustments : List
    BulkAdjustment} (db : DB) (now : Nat)
    (h : ∃ a ∈ adjustments, bulkPayloadInvalid a = true) :
    ∃ e, bulkUpdateStockTx db adjustments now = .error e := by
  induction adjustments generalizing db with
  | nil => obtain ⟨a, ha, _⟩ := h; exact absurd ha (by simp)
  | cons a rest ih =>
    by_cases hbad : bulkPayloadInvalid a = true
    · exact ⟨⟨"Invalid stock adjustment payload", 400, .INVALID_INPUT⟩,
        by simp [bulkUpdateStockTx, hbad]⟩
    · obtain ⟨b, hb, hbadb⟩ := h
      have hbrest : b ∈ rest := by
        rcases List.mem_cons.1 hb with rfl | h'
        · exact absurd hbadb hbad
        · exact h'
      unfold bulkUpdateStockTx
      rw [if_neg (by simp [hbad])]
      cases hint : adjustStockInternal db (a.skuId.getD "")
          (a.delta.getD (.fin 0)) (a.reason.getD "") a.userId now
          a.referenceOrderId with
      | error e => exact ⟨e, rfl⟩
      | ok p =>
        obtain ⟨r, db'⟩ := p
        obtain ⟨e, he⟩ := ih db' ⟨b, hbrest, hbadb⟩
        refine ⟨e, ?_⟩
        dsimp only
        rw [he]

/-- **C8.** `bulkUpdateStock` applies the batch inside one unit of work:
whenever it reports an error — a request failing payload validation,
insufficient stock, or any other failure — the store is returned exactly
as it was (no stock change, no ledger entry from the batch survives) and
the error is the one the failing request raised in the transactional
body; moreover a batch containing an invalid request always errors. -/
theorem bulkUpdateStock_atomic (db : DB)
    (adjustments : List BulkAdjustment) (now : Nat) :
    (∀ e, (bulkUpdateStock db adjustments now).1 = .error e →
      (bulkUpdateStock db adjustments now).2 = db ∧
        bulkUpdateStockTx db adjustments now = .error e) ∧
    ((∃ a ∈ adjustments, bulkPayloadInvalid a = true) →
      ∃ e, (bulkUpdateStock db adjustments now).1 = .error e) := by
  constructor
  · intro e he
    cases adjustments with
    | nil => exact absurd he (by simp [bulkUpdateStock])
    | cons a rest =>
      unfold bulkUpdateStock at he ⊢
      cases htx : bulkUpdateStockTx db (a :: rest) now with
      | error e' =>
        rw [htx] at he
        obtain rfl : e' = e := by simpa using he
        exact ⟨rfl, rfl⟩
      | ok p =>
        obtain ⟨rs, db'⟩ := p
        rw [htx] at he
        exact absurd he (by simp)
  · intro hbad
    obtain ⟨e, he⟩ := bulkUpdateStockTx_error_of_invalid db now hbad
    obtain ⟨a, ha, _⟩ := hbad
    cases adjustments with
    | nil => exact absurd ha (by simp)
    | cons a' rest =>
      refine ⟨e, ?_⟩
      unfold bulkUpdateStock
      rw [he]

/-- Witness for C8: a two-request batch whose first request succeeds (and
mutates inside the transaction) and whose second hits insufficient stock
is rolled back entirely, and a batch with a reason-less request errors. -/
theorem bulkUpdateStock_atomic_witness :
    ((bulkUpdateStock baseDb
        [⟨some "skuA", some (.fin (-2)), some "recount", none, none⟩,
         ⟨some "skuZ", some (.fin (-1)), some "recount", none, none⟩]
        4).2 = baseDb ∧
      bulkUpdateStockTx baseDb
        [⟨some "skuA", some (.fin (-2)), some "recount", none, none⟩,
         ⟨some "skuZ", some (.fin (-1)), some "recount", none, none⟩] 4 =
        .error ⟨"Stock cannot be negative", 400, .INSUFFICIENT_STOCK⟩) ∧
    (∃ e, (bulkUpdateStock baseDb
        [⟨some "skuA", some (.fin (-2)), none, none, none⟩] 4).1 =
          .error e) := by
  have hfail : (bulkUpdateStock baseDb
      [⟨some "skuA", some (.fin (-2)), some "recount", none, none⟩,
       ⟨some "skuZ", some (.fin (-1)), some "recount", none, none⟩]
      4).1 = .error ⟨"Stock cannot be negative", 400,
        .INSUFFICIENT_STOCK⟩ := by
    norm_num +decide [bulkUpdateStock, bulkUpdateStockTx,
      bulkPayloadInvalid, skuIdMissing, reasonMissing,
      adjustStockInternal, findSku, saveSku, baseDb, skuA, skuB, skuZ]
  exact ⟨(bulkUpdateStock_atomic baseDb
      [⟨some "skuA", some (.fin (-2)), some "recount", none, none⟩,
       ⟨some "skuZ", some (.fin (-1)), some "recount", none, none⟩] 4).1
      _ hfail,
    (bulkUpdateStock_atomic baseDb
      [⟨some "skuA", some (.fin (-2)), none, none, none⟩] 4).2
      ⟨⟨some "skuA", some (.fin (-2)), none, none, none⟩, by simp,
        by decide⟩⟩

/-! ## Order creation: inversion lemmas -/

theorem createOrder_error_elim {db : DB} {data : CreateOrderData}
    {uid : Option String} {t : DateParts} {uuid orderId : String}
    {now : Nat} {e : HttpError}
    (h : (createOrder db data uid t uuid orderId now).1 = .error e) :
    (createOrder db data uid t uuid orderId now).2 = db ∧
      createOrderTx db data uid t uuid orderId now = .error e := by
  unfold createOrder at h ⊢
  cases htx : createOrderTx db data uid t uuid orderId now with
  | error e' =>
    rw [htx] at h
    obtain rfl : e' = e := by simpa using h
    exact ⟨rfl, rfl⟩
  | ok p =>
    obtain ⟨resp, db'⟩ := p
    rw [htx] at h
    exact absurd h (by simp)

theorem createOrder_ok_elim {db : DB} {data : CreateOrderData}
    {uid : Option String} {t : DateParts} {uuid orderId : String}
    {now : Nat} {resp : OrderResponse}
    (h : (createOrder db data uid t uuid orderId now).1 = .ok resp) :
    createOrderTx db data uid t uuid orderId now =
      .ok (resp, (createOrder db data uid t uuid orderId now).2) := by
  unfold createOrder at h ⊢
  cases htx : createOrderTx db data uid t uuid orderId now with
  | error e => rw [htx] at h; exact absurd h (by simp)
  | ok p =>
    obtain ⟨resp', db'⟩ := p
    rw [htx] at h
    obtain rfl : resp' = resp := by simpa using h
    rfl

theorem toPositiveInteger_error {value : Option JsNum} {e : HttpError}
    (h : toPositiveInteger value = .error e) :
    e = ⟨"Quantity must be a positive integer", 400, .INVALID_INPUT⟩ := by
  unfold toPositiveInteger at h
  cases value with
  | none => simpa using h.symm
  | some v =>
    cases v with
    | fin q =>
      dsimp only at h
      by_cases hq : q.den = 1 ∧ 0 < q.num
      · rw [if_pos hq] at h; exact absurd h (by simp)
      · rw [if_neg hq] at h; simpa using h.symm
    | posInf => simpa using h.symm
    | negInf => simpa using h.symm
    | nan => simpa using h.symm

theorem toPositiveInteger_ok_pos {value : Option JsNum} {q : ℕ}
    (h : toPositiveInteger value = .ok q) : 1 ≤ q := by
  unfold toPositiveInteger at h
  cases value with
  | none => exact absurd h (by simp)
  | some v =>
    cases v with
    | fin qq =>
      dsimp only at h
      by_cases hd : qq.den = 1 ∧ 0 < qq.num
      · rw [if_pos hd] at h
        have : qq.num.toNat = q := by simpa using h
        omega
      · rw [if_neg hd] at h; exact absurd h (by simp)
    | posInf => exact absurd h (by simp)
    | negInf => exact absurd h (by simp)
    | nan => exact absurd h (by simp)

theorem prepareItems_ok_spec {skus : List Sku}
    {items : List OrderItemInput} {prepared : List OrderLineItem}
    {subTotal : ℚ}
    (h : prepareItems skus items = .ok (prepared, subTotal)) :
    subTotal = (prepared.map (fun i => i.lineTotal)).sum ∧
      (∀ i ∈ prepared, i.lineTotal = (i.quantity : ℚ) * i.unitPrice ∧
        1 ≤ i.quantity) := by
  induction items generalizing prepared subTotal with
  | nil =>
    obtain ⟨rfl, hsub⟩ : prepared = [] ∧ 0 = subTotal := by
      simpa [prepareItems] using h
    subst hsub
    simp
  | cons it rest ih =>
    unfold prepareItems at h
    by_cases h1 : skuIdMissing it.skuId = true
    · rw [if_pos (by simp [h1])] at h; exact absurd h (by simp)
    · rw [if_neg (by simp [h1])] at h
      cases hq : toPositiveInteger it.quantity with
      | error e => rw [hq] at h; exact absurd h (by simp)
      | ok q =>
        rw [hq] at h
        dsimp only at h
        cases hf : findSku skus (it.skuId.getD "") with
        | none => rw [hf] at h; exact absurd h (by simp)
        | some sku =>
          rw [hf] at h
          dsimp only at h
          by_cases h2 : sku.stock < (q : ℚ)
          · rw [if_pos h2] at h; exact absurd h (by simp)
          · rw [if_neg h2] at h
            cases hrest : prepareItems skus rest with
            | error e => rw [hrest] at h; exact absurd h (by simp)
            | ok p =>
              obtain ⟨tailItems, tailSub⟩ := p
              rw [hrest] at h
              dsimp only at h
              obtain ⟨hp, hs⟩ : ⟨sku._id, sku.productId, sku.sku, q,
                  sku.price, (q : ℚ) * sku.price, sku.attributes⟩ ::
                    tailItems = prepared ∧
                  (q : ℚ) * sku.price + tailSub = subTotal := by
                simpa using h
              obtain ⟨hsum, hitems⟩ := ih hrest
              have hqpos : 1 ≤ q := toPositiveInteger_ok_pos hq
              subst hp
              constructor
              · rw [← hs, hsum]; simp
              · intro i hi
                rcases List.mem_cons.1 hi with rfl | htl
                · exact ⟨rfl, hqpos⟩
                · exact hitems i htl

theorem computeTax_ok_spec {data : CreateOrderData} {subTotal v : ℚ}
    (h : computeTax data subTotal = .ok v) :
    (∃ q, data.tax = some (.fin q) ∧ 0 ≤ q ∧ v = q) ∨
      (data.tax = none ∧ ∃ r, data.taxRate = some (.fin r) ∧ 0 ≤ r ∧
        v = round2 (subTotal * r)) ∨
      (data.tax = none ∧ data.taxRate = none ∧ v = 0) := by
  unfold computeTax at h
  cases htax : data.tax with
  | some tv =>
    rw [htax] at h
    dsimp only at h
    cases tv with
    | fin q =>
      dsimp only at h
      by_cases hq : q < 0
      · rw [if_pos hq] at h; exact absurd h (by simp)
      · rw [if_neg hq] at h
        exact Or.inl ⟨q, rfl, le_of_not_lt hq, by simpa using h.symm⟩
    | posInf => exact absurd h (by simp)
    | negInf => exact absurd h (by simp)
    | nan => exact absurd h (by simp)
  | none =>
    rw [htax] at h
    dsimp only at h
    cases hrate : data.taxRate with
    | some rv =>
      rw [hrate] at h
      dsimp only at h
      cases rv with
      | fin r =>
        dsimp only at h
        by_cases hr : r < 0
        · rw [if_pos hr] at h; exact absurd h (by simp)
        · rw [if_neg hr] at h
          exact Or.inr (Or.inl ⟨rfl, r, rfl, le_of_not_lt hr,
            by simpa using h.symm⟩)
      | posInf => exact absurd h (by simp)
      | negInf => exact absurd h (by simp)
      | nan => exact absurd h (by simp)
    | none =>
      rw [hrate] at h
      exact Or.inr (Or.inr ⟨rfl, rfl, by simpa using h.symm⟩)

theorem createOrderTx_ok_spec {db : DB} {data : CreateOrderData}
    {uid : Option String} {t : DateParts} {uuid orderId : String}
    {now : Nat} {resp : OrderResponse} {db' : DB}
    (h : createOrderTx db data uid t uuid orderId now = .ok (resp, db')) :
    ∃ items prepared subTotal tax db₁,
      data.items = some items ∧ items.isEmpty = false ∧
      prepareItems db.skus items = .ok (prepared, subTotal) ∧
      computeTax data subTotal = .ok tax ∧
      deductItems db prepared (generateOrderNumber t uuid) uid now
        orderId = .ok db₁ ∧
      resp.order = Order.mk orderId (generateOrderNumber t uuid) prepared
        (round2 subTotal) (round2 tax) (round2 (subTotal + tax))
        "completed" uid ∧
      resp.totalItems = (prepared.map (fun i => i.quantity)).sum ∧
      db' = { db₁ with orders := db₁.orders ++ [resp.order] } := by
  unfold createOrderTx at h
  cases hitems : data.items with
  | none => rw [hitems] at h; exact absurd h (by simp)
  | some items =>
    rw [hitems] at h
    dsimp only at h
    by_cases hne : items.isEmpty = true
    · rw [if_pos (by simp [hne])] at h; exact absurd h (by simp)
    · rw [if_neg (by simp [hne])] at h
      cases hprep : prepareItems db.skus items with
      | error e => rw [hprep] at h; exact absurd h (by simp)
      | ok p =>
        obtain ⟨prepared, subTotal⟩ := p
        rw [hprep] at h
        dsimp only at h
        cases htax : computeTax data subTotal with
        | error e => rw [htax] at h; exact absurd h (by simp)
        | ok tax =>
          rw [htax] at h
          dsimp only at h
          cases hded : deductItems db prepared
              (generateOrderNumber t uuid) uid now orderId with
          | error e => rw [hded] at h; exact absurd h (by simp)
          | ok db₁ =>
            rw [hded] at h
            dsimp only at h
            rw [Except.ok.injEq, Prod.mk.injEq] at h
            obtain ⟨hresp, hdb⟩ := h
            refine ⟨items, prepared, subTotal, tax, db₁, rfl,
              Bool.eq_false_iff.2 hne, hprep, htax, hded, ?_, ?_, ?_⟩
            · rw [← hresp]
            · rw [← hresp]
            · rw [← hdb, ← hresp]

/-! ## Order creation: atomicity (C1) -/

/-- Fixture payload whose second line item re-orders SKU-A, so validation
passes on the original stock but the second deduction inside the
transaction underflows. -/
def dataDup : CreateOrderData :=
  ⟨some [⟨some "skuA", some (.fin 3)⟩, ⟨some "skuA", some (.fin 3)⟩],
    none, none⟩

/-- Fixture clock for order-number generation. -/
def tW : DateParts := ⟨2026, 1, 2, 3, 4, 5, 6⟩

/-- **C1.** Whenever `createOrder` fails — at any step, including a
`NotFound` or `InsufficientStock` on the k-th line item — the returned
store is exactly the input store (no SKU stock changed, no ledger entry,
no order document), and the error surfaced is precisely the error the
transactional body raised, not a wrapper. -/
theorem createOrder_atomicity (db : DB) (data : CreateOrderData)
    (uid : Option String) (t : DateParts) (uuid orderId : String)
    (now : Nat) (e : HttpError)
    (h : (createOrder db data uid t uuid orderId now).1 = .error e) :
    (createOrder db data uid t uuid orderId now).2 = db ∧
      createOrderTx db data uid t uuid orderId now = .error e :=
  createOrder_error_elim h

/-- Witness for C1: the duplicate-SKU order deducts SKU-A once inside the
transaction before the second line item underflows; the call still
returns the untouched store together with the engine's own error. -/
theorem createOrder_atomicity_witness :
    (createOrder baseDb dataDup none tW "a1b2c3d4-x" "oid1" 9).2 =
      baseDb ∧
    createOrderTx baseDb dataDup none tW "a1b2c3d4-x" "oid1" 9 =
      .error ⟨"Stock cannot be negative", 400, .INSUFFICIENT_STOCK⟩ := by
  have hq3 : toPositiveInteger (some (.fin 3)) = .ok 3 := rfl
  have h : (createOrder baseDb dataDup none tW "a1b2c3d4-x" "oid1" 9).1 =
      .error ⟨"Stock cannot be negative", 400, .INSUFFICIENT_STOCK⟩ := by
    norm_num +decide [createOrder, createOrderTx, prepareItems, computeTax,
      deductItems, adjustStockChecked, adjustStockInternal, deltaInvalid,
      reasonMissing, hq3, findSku, saveSku, skuIdMissing,
      baseDb, skuA, skuB, skuZ, dataDup, JsNum.isZero]
  exact createOrder_atomicity baseDb dataDup none tW "a1b2c3d4-x" "oid1"
    9 _ h

/-! ## Order creation: per-item validation (C6) -/

/-- An order item that passes every per-item check of the `createOrder`
validation loop against the given SKU collection. -/
def itemOk (skus : List Sku) (it : OrderItemInput) : Bool :=
  !skuIdMissing it.skuId &&
    match toPositiveInteger it.quantity with
    | .ok q =>
      match findSku skus (it.skuId.getD "") with
      | some sku => decide ((q : ℚ) ≤ sku.stock)
      | none => false
    | .error _ => false

theorem prepareItems_append_error {skus : List Sku}
    {pre l : List OrderItemInput} {e : HttpError}
    (hpre : ∀ it ∈ pre, itemOk skus it = true)
    (hl : prepareItems skus l = .error e) :
    prepareItems skus (pre ++ l) = .error e := by
  induction pre with
  | nil => simpa using hl
  | cons p ps ih =>
    have hp : itemOk skus p = true := hpre p (by simp)
    have hrest := ih (fun it hit => hpre it (by simp [hit]))
    unfold itemOk at hp
    rw [Bool.and_eq_true] at hp
    obtain ⟨hsid, hp2⟩ := hp
    have hsid' : skuIdMissing p.skuId = false := by simpa using hsid
    cases hq : toPositiveInteger p.quantity with
    | error e' => rw [hq] at hp2; exact absurd hp2 (by simp)
    | ok q =>
      rw [hq] at hp2
      dsimp only at hp2
      cases hf : findSku skus (p.skuId.getD "") with
      | none => rw [hf] at hp2; exact absurd hp2 (by simp)
      | some sku =>
        rw [hf] at hp2
        have hle : (q : ℚ) ≤ sku.stock := of_decide_eq_true (by
          simpa using hp2)
        show prepareItems skus (p :: (ps ++ l)) = .error e
        unfold prepareItems
        rw [if_neg (by simp [hsid']), hq]
        dsimp only
        rw [hf]
        dsimp only
        rw [if_neg (not_lt.2 hle), hrest]

theorem prepareItems_cons_quantity_error {skus : List Sku}
    {bad : OrderItemInput} {rest : List OrderItemInput} {e : HttpError}
    (hsid : skuIdMissing bad.skuId = false)
    (hq : toPositiveInteger bad.quantity = .error e) :
    prepareItems skus (bad :: rest) = .error e := by
  unfold prepareItems
  rw [if_neg (by simp [hsid]), hq]

theorem prepareItems_cons_notfound {skus : List Sku}
    {bad : OrderItemInput} {rest : List OrderItemInput} {q : ℕ}
    (hsid : skuIdMissing bad.skuId = false)
    (hq : toPositiveInteger bad.quantity = .ok q)
    (hf : findSku skus (bad.skuId.getD "") = none) :
    prepareItems skus (bad :: rest) =
      .error ⟨"SKU not found", 404, .SKU_NOT_FOUND⟩ := by
  unfold prepareItems
  rw [if_neg (by simp [hsid]), hq]
  try dsimp only
  rw [hf]

theorem prepareItems_cons_insufficient {skus : List Sku}
    {bad : OrderItemInput} {rest : List OrderItemInput} {q : ℕ} {sku : Sku}
    (hsid : skuIdMissing bad.skuId = false)
    (hq : toPositiveInteger bad.quantity = .ok q)
    (hf : findSku skus (bad.skuId.getD "") = some sku)
    (hlt : sku.stock < (q : ℚ)) :
    prepareItems skus (bad :: rest) =
      .error ⟨"Insufficient stock for SKU " ++ sku.sku, 400,
        .INSUFFICIENT_STOCK⟩ := by
  unfold prepareItems
  rw [if_neg (by simp [hsid]), hq]
  try dsimp only
  rw [hf]
  try dsimp only
  rw [if_pos hlt]

theorem createOrder_of_prepare_error {db : DB} {data : CreateOrderData}
    {uid : Option String} {t : DateParts} {uuid orderId : String}
    {now : Nat} {items : List OrderItemInput} {e : HttpError}
    (hitems : data.items = some items) (hne : items.isEmpty = false)
    (hp : prepareItems db.skus items = .error e) :
    createOrder db data uid t uuid orderId now = (.error e, db) := by
  have htx : createOrderTx db data uid t uuid orderId now = .error e := by
    unfold createOrderTx
    rw [hitems]
    try dsimp only
    rw [if_neg (by simp [hne])]
    try dsimp only
    rw [hp]
  unfold createOrder
  rw [htx]

/-- **C6.** `createOrder` rejects a missing/empty items list with
`InvalidInput` and validates the line items in input order: at the first
offending item it fails with `InvalidInput` (quantity not a positive
integer), `NotFound` (unresolvable skuId) or `InsufficientStock` (naming
the offending SKU code), and in every such case the whole operation
aborts with the store unchanged. -/
theorem createOrder_item_validation (db : DB) (data : CreateOrderData)
    (uid : Option String) (t : DateParts) (uuid orderId : String)
    (now : Nat) :
    ((data.items = none ∨ data.items = some []) →
      createOrder db data uid t uuid orderId now =
        (.error ⟨"Order items are required", 400, .INVALID_INPUT⟩, db)) ∧
    (∀ pre bad rest, data.items = some (pre ++ bad :: rest) →
      (∀ it ∈ pre, itemOk db.skus it = true) →
      skuIdMissing bad.skuId = false →
      ((∀ q, toPositiveInteger bad.quantity ≠ .ok q) →
        createOrder db data uid t uuid orderId now =
          (.error ⟨"Quantity must be a positive integer", 400,
            .INVALID_INPUT⟩, db)) ∧
      (∀ q, toPositiveInteger bad.quantity = .ok q →
        findSku db.skus (bad.skuId.getD "") = none →
        createOrder db data uid t uuid orderId now =
          (.error ⟨"SKU not found", 404, .SKU_NOT_FOUND⟩, db)) ∧
      (∀ q sku, toPositiveInteger bad.quantity = .ok q →
        findSku db.skus (bad.skuId.getD "") = some sku →
        sku.stock < (q : ℚ) →
        createOrder db data uid t uuid orderId now =
          (.error ⟨"Insufficient stock for SKU " ++ sku.sku, 400,
            .INSUFFICIENT_STOCK⟩, db))) := by
  constructor
  · rintro (hnone | hempty)
    · unfold createOrder createOrderTx
      rw [hnone]
    · unfold createOrder createOrderTx
      rw [hempty]
      rfl
  · intro pre bad rest hitems hpre hsid
    have hne : (pre ++ bad :: rest).isEmpty = false := by
      cases pre <;> rfl
    refine ⟨?_, ?_, ?_⟩
    · intro hnq
      cases hq : toPositiveInteger bad.quantity with
      | ok q => exact absurd hq (hnq q)
      | error e =>
        have he := toPositiveInteger_error hq
        subst he
        exact createOrder_of_prepare_error hitems hne
          (prepareItems_append_error hpre
            (prepareItems_cons_quantity_error hsid hq))
    · intro q hq hf
      exact createOrder_of_prepare_error hitems hne
        (prepareItems_append_error hpre
          (prepareItems_cons_notfound hsid hq hf))
    · intro q sku hq hf hlt
      exact createOrder_of_prepare_error hitems hne
        (prepareItems_append_error hpre
          (prepareItems_cons_insufficient hsid hq hf hlt))

/-- Witness for C6: an empty items list, a zero quantity on the first
item, an unknown SKU at the second position (after one valid item), and
the scenario-3 shape (SKU-A qty 3 fine, SKU-B qty 4 over stock 3) all
fail with the expected errors and an unchanged store. -/
theorem createOrder_item_validation_witness :
    createOrder baseDb ⟨some [], none, none⟩ none tW "u-1" "oid" 9 =
      (.error ⟨"Order items are required", 400, .INVALID_INPUT⟩,
        baseDb) ∧
    createOrder baseDb ⟨some [⟨some "skuA", some (.fin 0)⟩], none, none⟩
        none tW "u-1" "oid" 9 =
      (.error ⟨"Quantity must be a positive integer", 400,
        .INVALID_INPUT⟩, baseDb) ∧
    createOrder baseDb ⟨some [⟨some "skuA", some (.fin 1)⟩,
        ⟨some "ghost", some (.fin 1)⟩], none, none⟩ none tW "u-1" "oid"
        9 =
      (.error ⟨"SKU not found", 404, .SKU_NOT_FOUND⟩, baseDb) ∧
    createOrder baseDb ⟨some [⟨some "skuA", some (.fin 3)⟩,
        ⟨some "skuB", some (.fin 4)⟩], none, none⟩ none tW "u-1" "oid"
        9 =
      (.error ⟨"Insufficient stock for SKU SKU-B", 400,
        .INSUFFICIENT_STOCK⟩, baseDb) := by
  refine ⟨(createOrder_item_validation baseDb ⟨some [], none, none⟩ none
      tW "u-1" "oid" 9).1 (Or.inr rfl), ?_, ?_, ?_⟩
  · have h := (createOrder_item_validation baseDb
      ⟨some [⟨some "skuA", some (.fin 0)⟩], none, none⟩ none tW "u-1"
      "oid" 9).2 [] ⟨some "skuA", some (.fin 0)⟩ [] rfl (by simp) rfl
    exact h.1 (by
      intro q hq
      have hz : toPositiveInteger (some (.fin 0)) = .error
          ⟨"Quantity must be a positive integer", 400, .INVALID_INPUT⟩ :=
        rfl
      rw [hz] at hq
      exact absurd hq (by simp))
  · have h := (createOrder_item_validation baseDb
      ⟨some [⟨some "skuA", some (.fin 1)⟩, ⟨some "ghost", some (.fin 1)⟩],
        none, none⟩ none tW "u-1" "oid" 9).2
      [⟨some "skuA", some (.fin 1)⟩] ⟨some "ghost", some (.fin 1)⟩ []
      rfl ?_ rfl
    · exact h.2.1 1 rfl (by decide)
    · intro it hit
      have : it = ⟨some "skuA", some (.fin 1)⟩ := by simpa using hit
      subst this
      have hq1 : toPositiveInteger (some (.fin 1)) = .ok 1 := rfl
      norm_num +decide [itemOk, skuIdMissing, hq1, findSku,
        baseDb, skuA, skuB, skuZ]
  · have h := (createOrder_item_validation baseDb
      ⟨some [⟨some "skuA", some (.fin 3)⟩, ⟨some "skuB", some (.fin 4)⟩],
        none, none⟩ none tW "u-1" "oid" 9).2
      [⟨some "skuA", some (.fin 3)⟩] ⟨some "skuB", some (.fin 4)⟩ []
      rfl ?_ rfl
    · refine h.2.2 4 skuB rfl rfl ?_
      norm_num [skuB]
    · intro it hit
      have : it = ⟨some "skuA", some (.fin 3)⟩ := by simpa using hit
      subst this
      have hq3 : toPositiveInteger (some (.fin 3)) = .ok 3 := rfl
      norm_num +decide [itemOk, skuIdMissing, hq3, findSku,
        baseDb, skuA, skuB, skuZ]

/-! ## Order creation: totals (C5) -/

/-- **C5.** For every successfully created order: each line total is
`quantity × unit-price snapshot`; the stored `subTotal` is the 2-decimal
rounding of the sum of the line totals; the tax value is the explicitly
supplied amount when given, else `round2(subTotal × taxRate)` when a rate
is given, else 0; the stored `tax` and `total` are the 2-decimal
roundings of that value and of `subTotal + tax`; and the response's
`totalItems` is the sum of the line-item quantities. -/
theorem createOrder_totals (db : DB) (data : CreateOrderData)
    (uid : Option String) (t : DateParts) (uuid orderId : String)
    (now : Nat) (resp : OrderResponse)
    (h : (createOrder db data uid t uuid orderId now).1 = .ok resp) :
    (∀ i ∈ resp.order.items,
      i.lineTotal = (i.quantity : ℚ) * i.unitPrice) ∧
    resp.order.subTotal =
      round2 ((resp.order.items.map (fun i => i.lineTotal)).sum) ∧
    (∃ taxVal,
      resp.order.tax = round2 taxVal ∧
      resp.order.total =
        round2 ((resp.order.items.map (fun i => i.lineTotal)).sum +
          taxVal) ∧
      ((∃ q, data.tax = some (.fin q) ∧ 0 ≤ q ∧ taxVal = q) ∨
       (data.tax = none ∧ ∃ r, data.taxRate = some (.fin r) ∧ 0 ≤ r ∧
         taxVal = round2
           ((resp.order.items.map (fun i => i.lineTotal)).sum * r)) ∨
       (data.tax = none ∧ data.taxRate = none ∧ taxVal = 0))) ∧
    resp.totalItems =
      (resp.order.items.map (fun i => i.quantity)).sum := by
  have htx := createOrder_ok_elim h
  obtain ⟨items, prepared, subTotal, tax, db₁, hitems, hne, hprep,
    htaxok, hded, hord, htot, hdb⟩ := createOrderTx_ok_spec htx
  obtain ⟨hsub, hline⟩ := prepareItems_ok_spec hprep
  have hitems' : resp.order.items = prepared := by rw [hord]
  refine ⟨?_, ?_, ⟨tax, ?_, ?_, ?_⟩, ?_⟩
  · intro i hi
    exact (hline i (hitems' ▸ hi)).1
  · rw [hord]; dsimp only; rw [← hsub]
  · rw [hord]
  · rw [hord]; dsimp only; rw [← hsub]
  · rcases computeTax_ok_spec htaxok with hcase | hcase | hcase
    · exact Or.inl hcase
    · refine Or.inr (Or.inl ?_)
      obtain ⟨hnone, r, hrate, hr0, hval⟩ := hcase
      exact ⟨hnone, r, hrate, hr0, by rw [hitems', ← hsub]; exact hval⟩
    · exact Or.inr (Or.inr hcase)
  · rw [htot, hitems']

/-- Fixture payload for spec scenario 4: SKU-A qty 2 at price 10, SKU-B
qty 1 at price 5.50, tax rate 0.1. -/
def dataS4 : CreateOrderData :=
  ⟨some [⟨some "skuA", some (.fin 2)⟩, ⟨some "skuB", some (.fin 1)⟩],
    none, some (.fin (1 / 10))⟩

/-- The response scenario 4 produces: subTotal 25.50, tax 2.55,
total 28.05, three units in all. -/
def respS4 : OrderResponse :=
  ⟨Order.mk "oid2" (generateOrderNumber tW "a1b2c3d4-x")
    [⟨"skuA", "prodA", "SKU-A", 2, 10, 20, [("color", "red")]⟩,
     ⟨"skuB", "prodB", "SKU-B", 1, 11 / 2, 11 / 2, []⟩]
    (51 / 2) (51 / 20) (561 / 20) "completed" none, 3⟩

/-- Witness for C5: scenario 4 on the fixture store really produces the
order with subTotal 25.50, tax 2.55, total 28.05 and 3 total items, and
the totals law holds of it. -/
theorem createOrder_totals_witness :
    ((createOrder baseDb dataS4 none tW "a1b2c3d4-x" "oid2" 9).1 =
      .ok respS4) ∧
    ((∀ i ∈ respS4.order.items,
      i.lineTotal = (i.quantity : ℚ) * i.unitPrice) ∧
    respS4.order.subTotal =
      round2 ((respS4.order.items.map (fun i => i.lineTotal)).sum) ∧
    (∃ taxVal,
      respS4.order.tax = round2 taxVal ∧
      respS4.order.total =
        round2 ((respS4.order.items.map (fun i => i.lineTotal)).sum +
          taxVal) ∧
      ((∃ q, dataS4.tax = some (.fin q) ∧ 0 ≤ q ∧ taxVal = q) ∨
       (dataS4.tax = none ∧ ∃ r, dataS4.taxRate = some (.fin r) ∧
         0 ≤ r ∧ taxVal = round2
           ((respS4.order.items.map (fun i => i.lineTotal)).sum * r)) ∨
       (dataS4.tax = none ∧ dataS4.taxRate = none ∧ taxVal = 0))) ∧
    respS4.totalItems =
      (respS4.order.items.map (fun i => i.quantity)).sum) := by
  have hq2 : toPositiveInteger (some (.fin 2)) = .ok 2 := rfl
  have hq1 : toPositiveInteger (some (.fin 1)) = .ok 1 := rfl
  have h : (createOrder baseDb dataS4 none tW "a1b2c3d4-x" "oid2" 9).1 =
      .ok respS4 := by
    norm_num +decide [createOrder, createOrderTx, prepareItems, computeTax,
      deductItems, adjustStockChecked, adjustStockInternal, deltaInvalid,
      reasonMissing, hq1, hq2, findSku, saveSku, skuIdMissing, round2,
      Int.floor_eq_iff, baseDb, skuA, skuB, skuZ, dataS4, respS4,
      JsNum.isZero]
  exact ⟨h, createOrder_totals baseDb dataS4 none tW "a1b2c3d4-x" "oid2"
    9 respS4 h⟩

/-! ## Order numbers (C9) -/

theorem string_eq_of_data {a b : String} (h : a.data = b.data) :
    a = b := by
  cases a; cases b; cases h; rfl

theorem digitChar_isDigit {m : Nat} (h : m < 10) :
    (Nat.digitChar m).isDigit = true := by
  interval_cases m <;> decide

theorem toDigitsCore_digits :
    ∀ (f n : Nat) (l : List Char), (∀ c ∈ l, c.isDigit = true) →
      ∀ c ∈ Nat.toDigitsCore 10 f n l, c.isDigit = true := by
  intro f
  induction f with
  | zero =>
    intro n l hl c hc
    exact hl c (by simpa [Nat.toDigitsCore] using hc)
  | succ f ih =>
    intro n l hl c hc
    rw [Nat.toDigitsCore] at hc
    by_cases h0 : n / 10 = 0
    · rw [if_pos h0] at hc
      rcases List.mem_cons.1 hc with rfl | hcl
      · exact digitChar_isDigit (Nat.mod_lt _ (by norm_num))
      · exact hl c hcl
    · rw [if_neg h0] at hc
      refine ih (n / 10) _ ?_ c hc
      intro c' hc'
      rcases List.mem_cons.1 hc' with rfl | hcl
      · exact digitChar_isDigit (Nat.mod_lt _ (by norm_num))
      · exact hl c' hcl

theorem repr_digits (n : Nat) :
    ∀ c ∈ (Nat.repr n).data, c.isDigit = true := by
  intro c hc
  have hrepr : (Nat.repr n).data = Nat.toDigits 10 n := rfl
  rw [hrepr] at hc
  exact toDigitsCore_digits (n + 1) n [] (by simp) c hc

theorem padNum_digits (w n : Nat) :
    ∀ c ∈ (padNum w n).data, c.isDigit = true := by
  intro c hc
  have hdata : (padNum w n).data =
      List.replicate (w - (Nat.repr n).length) '0' ++ (Nat.repr n).data :=
    rfl
  rw [hdata] at hc
  rcases List.mem_append.1 hc with hrep | hdig
  · obtain rfl := List.eq_of_mem_replicate hrep
    decide
  · exact repr_digits n c hdig

theorem padNum_length {w n : Nat} (hw : 0 < w) (h : n < 10 ^ w) :
    (padNum w n).data.length = w := by
  have hle : (Nat.repr n).length ≤ w := Nat.repr_length n w hw h
  have hdata : (padNum w n).data =
      List.replicate (w - (Nat.repr n).length) '0' ++ (Nat.repr n).data :=
    rfl
  rw [hdata]
  have hlen : (Nat.repr n).data.length = (Nat.repr n).length := rfl
  simp [hlen]
  omega

theorem keep_digit {c : Char} (h : c.isDigit = true) :
    isKeptChar c = true := by
  have hne : ∀ d : Char, d.isDigit = false → c ≠ d := by
    intro d hd hcd
    rw [hcd, hd] at h
    exact absurd h (by simp)
  have h1 := hne '-' (by decide)
  have h2 := hne ':' (by decide)
  have h3 := hne 'T' (by decide)
  have h4 := hne 'Z' (by decide)
  have h5 := hne '.' (by decide)
  simp [isKeptChar, h1, h2, h3, h4, h5]

theorem filter_padNum (w n : Nat) :
    (padNum w n).data.filter isKeptChar = (padNum w n).data :=
  List.filter_eq_self.2 (fun c hc => keep_digit (padNum_digits w n c hc))

theorem data_append (a b : String) :
    (a ++ b).data = a.data ++ b.data := rfl

theorem strip_data (s : String) :
    (stripDateSeparators s).data = s.data.filter isKeptChar := rfl

theorem string_length_data (s : String) : s.length = s.data.length := rfl

theorem upcase_data (s : String) :
    (upcase s).data = s.data.map Char.toUpper := rfl

theorem sliceTo_data (n : Nat) (s : String) :
    (sliceTo n s).data = s.data.take n := rfl

theorem strip_toISOString (t : DateParts) :
    (stripDateSeparators (toISOString t)).data =
      (padNum 4 t.year).data ++ (padNum 2 t.month).data ++
      (padNum 2 t.day).data ++ (padNum 2 t.hour).data ++
      (padNum 2 t.minute).data ++ (padNum 2 t.second).data ++
      (padNum 3 t.millis).data := by
  have hiso : (toISOString t).data =
      (padNum 4 t.year).data ++ ['-'] ++ (padNum 2 t.month).data ++
      ['-'] ++ (padNum 2 t.day).data ++ ['T'] ++
      (padNum 2 t.hour).data ++ [':'] ++ (padNum 2 t.minute).data ++
      [':'] ++ (padNum 2 t.second).data ++ ['.'] ++
      (padNum 3 t.millis).data ++ ['Z'] := by
    unfold toISOString
    simp only [data_append]
  rw [strip_data, hiso]
  simp only [List.filter_append, filter_padNum,
    (show List.filter isKeptChar ['-'] = [] from rfl),
    (show List.filter isKeptChar [':'] = [] from rfl),
    (show List.filter isKeptChar ['T'] = [] from rfl),
    (show List.filter isKeptChar ['.'] = [] from rfl),
    (show List.filter isKeptChar ['Z'] = [] from rfl),
    List.append_nil, List.nil_append]

/-- **C9.** Every generated order number is
`ORD-<14-digit UTC timestamp YYYYMMDDHHMMSS>-<8-character suffix>`, where
the suffix is the upper-cased first uuid group; and the generator
performs no uniqueness re-check against the store: on any store whatever,
a successful `createOrder` persists exactly `generateOrderNumber t uuid`
as the order number. -/
theorem generateOrderNumber_spec (t : DateParts) (uuid : String)
    (hy : t.year < 10000) (hmo : t.month < 100) (hd : t.day < 100)
    (hh : t.hour < 100) (hmi : t.minute < 100) (hs : t.second < 100)
    (hu : (firstDashGroup uuid).length = 8) :
    ∃ ts suffix : String,
      generateOrderNumber t uuid = "ORD-" ++ ts ++ "-" ++ suffix ∧
      ts.length = 14 ∧ (∀ c ∈ ts.data, c.isDigit = true) ∧
      suffix.length = 8 ∧
      ts = padNum 4 t.year ++ padNum 2 t.month ++ padNum 2 t.day ++
        padNum 2 t.hour ++ padNum 2 t.minute ++ padNum 2 t.second ∧
      suffix = upcase (firstDashGroup uuid) ∧
      (∀ db data uid orderId now resp,
        (createOrder db data uid t uuid orderId now).1 = .ok resp →
        resp.order.orderNumber = generateOrderNumber t uuid) := by
  have h4 : (padNum 4 t.year).data.length = 4 :=
    padNum_length (by norm_num) (by simpa using hy)
  have hmo2 : (padNum 2 t.month).data.length = 2 :=
    padNum_length (by norm_num) (by simpa using hmo)
  have hd2 : (padNum 2 t.day).data.length = 2 :=
    padNum_length (by norm_num) (by simpa using hd)
  have hh2 : (padNum 2 t.hour).data.length = 2 :=
    padNum_length (by norm_num) (by simpa using hh)
  have hmi2 : (padNum 2 t.minute).data.length = 2 :=
    padNum_length (by norm_num) (by simpa using hmi)
  have hs2 : (padNum 2 t.second).data.length = 2 :=
    padNum_length (by norm_num) (by simpa using hs)
  set A : List Char := (padNum 4 t.year).data ++ (padNum 2 t.month).data
    ++ (padNum 2 t.day).data ++ (padNum 2 t.hour).data ++
    (padNum 2 t.minute).data ++ (padNum 2 t.second).data with hA
  have hAlen : A.length = 14 := by
    simp [hA, h4, hmo2, hd2, hh2, hmi2, hs2]
  have hslice : (sliceTo 14 (stripDateSeparators (toISOString t))).data =
      A := by
    rw [sliceTo_data, strip_toISOString t]
    have hassoc : (padNum 4 t.year).data ++ (padNum 2 t.month).data ++
        (padNum 2 t.day).data ++ (padNum 2 t.hour).data ++
        (padNum 2 t.minute).data ++ (padNum 2 t.second).data ++
        (padNum 3 t.millis).data = A ++ (padNum 3 t.millis).data := by
      rw [hA]
    rw [hassoc, ← hAlen, List.take_left]
  have hts : sliceTo 14 (stripDateSeparators (toISOString t)) =
      padNum 4 t.year ++ padNum 2 t.month ++ padNum 2 t.day ++
      padNum 2 t.hour ++ padNum 2 t.minute ++ padNum 2 t.second :=
    string_eq_of_data (by rw [hslice]; simp only [data_append, hA])
  have hgen : generateOrderNumber t uuid =
      "ORD-" ++ sliceTo 14 (stripDateSeparators (toISOString t)) ++ "-"
        ++ upcase (firstDashGroup uuid) := rfl
  have hlen14 :
      (sliceTo 14 (stripDateSeparators (toISOString t))).length = 14 := by
    rw [string_length_data, hslice]; exact hAlen
  have hulen : (upcase (firstDashGroup uuid)).length = 8 := by
    rw [string_length_data, upcase_data, List.length_map,
      ← string_length_data]
    exact hu
  refine ⟨sliceTo 14 (stripDateSeparators (toISOString t)),
    upcase (firstDashGroup uuid), hgen, hlen14, ?_, hulen, hts, rfl, ?_⟩
  · intro c hc
    rw [hslice] at hc
    rw [hA] at hc
    rcases List.mem_append.1 hc with hc' | hc'
    rotate_left
    · exact padNum_digits _ _ c hc'
    rcases List.mem_append.1 hc' with hc'' | hc''
    rotate_left
    · exact padNum_digits _ _ c hc''
    rcases List.mem_append.1 hc'' with hc3 | hc3
    rotate_left
    · exact padNum_digits _ _ c hc3
    rcases List.mem_append.1 hc3 with hc4 | hc4
    rotate_left
    · exact padNum_digits _ _ c hc4
    rcases List.mem_append.1 hc4 with hc5 | hc5
    · exact padNum_digits _ _ c hc5
    · exact padNum_digits _ _ c hc5
  · intro db data uid orderId now resp hok
    obtain ⟨items, prepared, subTotal, tax, db₁, _, _, _, _, _, hord, _,
      _⟩ := createOrderTx_ok_spec (createOrder_ok_elim hok)
    rw [hord]

/-- Witness for C9: a concrete clock and uuid generate
`ORD-20260102030405-A1B2C3D4`, of the stated shape. -/
theorem generateOrderNumber_spec_witness :
    ∃ ts suffix : String,
      generateOrderNumber tW "a1b2c3d4-e5f6-7890" =
        "ORD-" ++ ts ++ "-" ++ suffix ∧
      ts.length = 14 ∧ (∀ c ∈ ts.data, c.isDigit = true) ∧
      suffix.length = 8 ∧
      ts = padNum 4 tW.year ++ padNum 2 tW.month ++ padNum 2 tW.day ++
        padNum 2 tW.hour ++ padNum 2 tW.minute ++ padNum 2 tW.second ∧
      suffix = upcase (firstDashGroup "a1b2c3d4-e5f6-7890") ∧
      (∀ db data uid orderId now resp,
        (createOrder db data uid tW "a1b2c3d4-e5f6-7890" orderId
          now).1 = .ok resp →
        resp.order.orderNumber =
          generateOrderNumber tW "a1b2c3d4-e5f6-7890") :=
  generateOrderNumber_spec tW "a1b2c3d4-e5f6-7890" (by decide)
    (by decide) (by decide) (by decide) (by decide) (by decide)
    (by decide)

/-! ## Low-stock query (C4) -/

theorem mem_insertSorted {α : Type} {le : α → α → Bool} {x a : α} :
    ∀ {l : List α}, a ∈ insertSorted le x l ↔ a = x ∨ a ∈ l := by
  intro l
  induction l with
  | nil => simp [insertSorted]
  | cons y ys ih =>
    unfold insertSorted
    by_cases h : le x y = true
    · rw [if_pos h]
      simp [List.mem_cons]
    · rw [if_neg h]
      simp only [List.mem_cons, ih]
      tauto

theorem pairwise_insertSorted {α : Type} {le : α → α → Bool}
    (htot : ∀ a b, le a b = true ∨ le b a = true)
    (htrans : ∀ a b c, le a b = true → le b c = true → le a c = true)
    (x : α) :
    ∀ {l : List α}, l.Pairwise (fun a b => le a b = true) →
      (insertSorted le x l).Pairwise (fun a b => le a b = true) := by
  intro l
  induction l with
  | nil => intro _; simp [insertSorted]
  | cons y ys ih =>
    intro hp
    obtain ⟨hy, hys⟩ := List.pairwise_cons.1 hp
    unfold insertSorted
    by_cases h : le x y = true
    · rw [if_pos h]
      refine List.pairwise_cons.2 ⟨?_, hp⟩
      intro b hb
      rcases List.mem_cons.1 hb with rfl | hbys
      · exact h
      · exact htrans x y b h (hy b hbys)
    · rw [if_neg h]
      have hyx : le y x = true := (htot x y).resolve_left h
      refine List.pairwise_cons.2 ⟨?_, ih hys⟩
      intro b hb
      rcases mem_insertSorted.1 hb with rfl | hbys
      · exact hyx
      · exact hy b hbys

theorem mem_sortByLe {α : Type} {le : α → α → Bool} {a : α} :
    ∀ {l : List α}, a ∈ sortByLe le l ↔ a ∈ l := by
  intro l
  induction l with
  | nil => simp [sortByLe]
  | cons y ys ih =>
    unfold sortByLe
    rw [mem_insertSorted, ih, List.mem_cons]

theorem pairwise_sortByLe {α : Type} {le : α → α → Bool}
    (htot : ∀ a b, le a b = true ∨ le b a = true)
    (htrans : ∀ a b c, le a b = true → le b c = true → le a c = true) :
    ∀ (l : List α),
      (sortByLe le l).Pairwise (fun a b => le a b = true) := by
  intro l
  induction l with
  | nil => simp [sortByLe]
  | cons y ys ih =>
    unfold sortByLe
    exact pairwise_insertSorted htot htrans y ih

theorem lowStockLE_iff {a b : LowStockRow} :
    lowStockLE a b = true ↔
      (a.stock < b.stock ∨ (a.stock = b.stock ∧ a.sku ≤ b.sku)) := by
  simp [lowStockLE, Bool.or_eq_true, Bool.and_eq_true,
    decide_eq_true_eq, beq_iff_eq]

theorem lowStockLE_total (a b : LowStockRow) :
    lowStockLE a b = true ∨ lowStockLE b a = true := by
  rw [lowStockLE_iff, lowStockLE_iff]
  rcases lt_trichotomy a.stock b.stock with h | h | h
  · exact Or.inl (Or.inl h)
  · rcases le_total a.sku b.sku with hs | hs
    · exact Or.inl (Or.inr ⟨h, hs⟩)
    · exact Or.inr (Or.inr ⟨h.symm, hs⟩)
  · exact Or.inr (Or.inl h)

theorem lowStockLE_trans (a b c : LowStockRow)
    (hab : lowStockLE a b = true) (hbc : lowStockLE b c = true) :
    lowStockLE a c = true := by
  rw [lowStockLE_iff] at hab hbc ⊢
  rcases hab with h1 | ⟨h1, h1'⟩
  · rcases hbc with h2 | ⟨h2, _⟩
    · exact Or.inl (h1.trans h2)
    · exact Or.inl (h2 ▸ h1)
  · rcases hbc with h2 | ⟨h2, h2'⟩
    · exact Or.inl (h1 ▸ h2)
    · exact Or.inr ⟨h1.trans h2, h1'.trans h2'⟩

/-- **C4 (amended).** `findLowStock` returns exactly the SKUs matching
the aggregation's `$or`: stock at most the SKU's own threshold (when one
is set) **or** stock at most the global default — so a SKU whose own
threshold is exceeded is still reported when its stock is within the
global default.  Rows carry the `$ifNull` effective threshold, and the
result is sorted by ascending stock and then SKU code. -/
theorem findLowStock_spec (db : DB) :
    (∀ r, r ∈ findLowStock db ↔ ∃ s, s ∈ db.skus ∧
      lowStockMatch db.defaultReorderThreshold s = true ∧
      r = toLowStockRow db.products db.defaultReorderThreshold s) ∧
    (findLowStock db).Pairwise (fun a b => lowStockLE a b = true) := by
  constructor
  · intro r
    unfold findLowStock
    rw [mem_sortByLe, List.mem_map]
    constructor
    · rintro ⟨s, hs, rfl⟩
      have hm := List.mem_filter.1 hs
      exact ⟨s, hm.1, hm.2, rfl⟩
    · rintro ⟨s, hs, hmatch, rfl⟩
      exact ⟨s, List.mem_filter.2 ⟨hs, hmatch⟩, rfl⟩
  · exact pairwise_sortByLe lowStockLE_total lowStockLE_trans _

/-- A SKU whose own threshold (1) is exceeded by its stock (3) while the
global default (5) still covers it. -/
def exSku : Sku := ⟨"s1", "p1", "SKU-1", "333", [], 1, 3, some 1, 0⟩

/-- A store containing only `exSku`, global default threshold 5. -/
def exDb : DB := ⟨[exSku], [], [], [], 5⟩

/-- Counterexample to C4 as stated: `findLowStock` returns `exSku` even
though no SKU of the store has `stock ≤ effectiveThreshold` in the
spec's sense (own threshold when set, else the default). -/
theorem findLowStock_counterexample :
    ((findLowStock exDb).map (fun r => r.skuId) = ["s1"]) ∧
    (∀ s ∈ exDb.skus, ¬(s.stock ≤ specEffectiveThreshold
      exDb.defaultReorderThreshold s)) := by
  constructor
  · decide
  · intro s hs
    fin_cases hs
    norm_num [specEffectiveThreshold, exSku, exDb]

/-- Witness for the amended C4 at a concrete store: the single row the
query returns is exactly the projection of `exSku`, and the result is
sorted. -/
theorem findLowStock_spec_witness :
    ((toLowStockRow exDb.products exDb.defaultReorderThreshold exSku ∈
        findLowStock exDb) ↔
      ∃ s, s ∈ exDb.skus ∧
        lowStockMatch exDb.defaultReorderThreshold s = true ∧
        toLowStockRow exDb.products exDb.defaultReorderThreshold exSku =
          toLowStockRow exDb.products exDb.defaultReorderThreshold s) ∧
    (findLowStock exDb).Pairwise (fun a b => lowStockLE a b = true) :=
  ⟨(findLowStock_spec exDb).1 _, (findLowStock_spec exDb).2⟩

end Riom
